import Mathlib

/-!
Verification of the client-side persistent cache and local search engine of
the chat-assistant application (`src/lib/knowledge.ts`).

The TypeScript source is shallowly embedded: records are association lists of
string-valued columns plus the derived `source`/`content` fields, the browser
`localStorage` key-value store is an explicit state structure, and calls that
may throw (`localStorage.setItem` / `removeItem`) are driven by an explicit
failure oracle.  JavaScript `Math.ceil` / `Math.floor` arithmetic on the small
integers involved is modelled with exact natural-number arithmetic, and
`compress`/`JSON.stringify` round-trips are modelled as the identity on the
serialized record list (both are injective encodings in the source).
-/

set_option autoImplicit false

namespace Knowledge

/-- One ingested record: the open row (column name → scalar value, in object
insertion order) plus the derived `source` and `content` fields, mirroring
`{...row, source, content}` in `knowledge.ts`. -/
structure DataEntry where
  fields : List (String × String)
  source : String
  content : String
deriving Repr, DecidableEq

/-- ASCII lowercasing of a string, modelling JavaScript `toLowerCase` on the
ASCII strings manipulated here. -/
def strToLower (s : String) : String :=
  String.mk (s.data.map Char.toLower)

/-- Model of `Object.values(row).some(value => value != null && value !== '')`:
the row-emptiness filter used by both ingestion paths. -/
def rowNonEmpty (row : List (String × String)) : Bool :=
  row.any (fun kv => kv.2 != "")

/-- Model of
`Object.entries(row).filter(([_, v]) => v != null && v !== '').map(([k, v]) => k + ": " + v).join(' | ')`:
the derived `content` body shared by the CSV and Excel paths. -/
def rowContent (row : List (String × String)) : String :=
  String.intercalate " | "
    ((row.filter (fun kv => kv.2 != "")).map (fun kv => kv.1 ++ ": " ++ kv.2))

/-- The citation marker `【N:1†source】` prepended by `processCsvFile`, with
`i` the 0-based position in the filtered batch (`N = i + 1`). -/
def sourceRef (i : Nat) : String :=
  "【" ++ Nat.repr (i + 1) ++ ":1†source】"

/-- The constant backend source identifier used by `processCsvFile` when its
argument is a file name string rather than an uploaded `File`. -/
def backendSource : String := "PharmAlchemy"

/-- Model of the row-mapping step of `processCsvFile` (knowledge.ts:165-179):
rows are filtered for non-emptiness and each surviving row becomes a record
whose `content` is prefixed with the sequential citation marker.  `isBackend`
is `true` when the original argument was a string (backend dataset fetch) and
`false` when it was an uploaded `File`. -/
def processCsvRows (isBackend : Bool) (fileName : String)
    (rows : List (List (String × String))) : List DataEntry :=
  ((rows.filter rowNonEmpty).enum).map (fun p =>
    { fields := p.2
      source := if isBackend then backendSource else fileName
      content := sourceRef p.1 ++ rowContent p.2 })

/-- Model of the row-mapping step of `processExcelFile` (knowledge.ts:111-120):
same filtering and `content` join, but no citation marker is prepended. -/
def processExcelRows (fileName : String)
    (rows : List (List (String × String))) : List DataEntry :=
  (rows.filter rowNonEmpty).map (fun row =>
    { fields := row
      source := fileName
      content := rowContent row })

/-- Fuel-driven body of the chunk partition loop.  The fuel starts at the
list length and strictly dominates the number of loop iterations, so the
`(0, _ :: _)` case is never reached from `chunksOf`. -/
def chunksOfAux {α : Type} (k : Nat) : Nat → List α → List (List α)
  | _, [] => []
  | 0, _ :: _ => []
  | fuel + 1, a :: t => ((a :: t).take k) :: chunksOfAux k fuel ((a :: t).drop k)

/-- The chunk partition loop of `saveCachedData` (knowledge.ts:65-67):
`for (let i = 0; i < cachedData.length; i += itemsPerChunk) chunks.push(slice(i, i + itemsPerChunk))`.
With `k = 0` the source loop never runs, because
`itemsPerChunk = Math.ceil(len / 40)` is `0` only when the cache is empty. -/
def chunksOf {α : Type} (k : Nat) (l : List α) : List (List α) :=
  if k = 0 then [] else chunksOfAux k l.length l

theorem chunksOf_nil {α : Type} (k : Nat) : chunksOf k ([] : List α) = [] := by
  cases k <;> rfl

/-- Unfolding equation for `chunksOf` on a non-empty list with `k ≥ 1`:
the first chunk is `take k`, the rest is the partition of `drop k`. -/
theorem chunksOfAux_fuel {α : Type} (k : Nat) (hk : 1 ≤ k) :
    ∀ (fuel fuel' : Nat) (l : List α), l.length ≤ fuel → l.length ≤ fuel' →
      chunksOfAux k fuel l = chunksOfAux k fuel' l := by
  intro fuel
  induction fuel with
  | zero =>
    intro fuel' l hl _
    have : l = [] := List.length_eq_zero.mp (Nat.le_zero.mp hl)
    subst this
    cases fuel' <;> rfl
  | succ fuel ih =>
    intro fuel' l hl hl'
    cases l with
    | nil => cases fuel' <;> rfl
    | cons a t =>
      simp only [List.length_cons] at hl hl'
      cases fuel' with
      | zero => omega
      | succ fuel' =>
        show _ :: _ = _ :: _
        congr 1
        exact ih fuel' ((a :: t).drop k)
          (by simp only [List.length_drop, List.length_cons]; omega)
          (by simp only [List.length_drop, List.length_cons]; omega)

theorem chunksOf_cons {α : Type} (k : Nat) (hk : 1 ≤ k) (a : α) (t : List α) :
    chunksOf k (a :: t) = ((a :: t).take k) :: chunksOf k ((a :: t).drop k) := by
  have hk0 : k ≠ 0 := by omega
  simp only [chunksOf, hk0, if_false]
  simp only [List.length_cons]
  show chunksOfAux k (t.length + 1) (a :: t) = _
  cases ht : t.length with
  | zero =>
    have : t = [] := List.length_eq_zero.mp ht
    subst this
    show ((a :: []).take k) :: chunksOfAux k 0 ((a :: []).drop k) = _
    congr 1
    exact chunksOfAux_fuel k hk 0 ((a :: List.nil).drop k).length _
      (by simp only [List.length_drop, List.length_cons, List.length_nil]; omega) (Nat.le_refl _)
  | succ m =>
    show ((a :: t).take k) :: chunksOfAux k (m + 1) ((a :: t).drop k) = _
    congr 1
    exact chunksOfAux_fuel k hk (m + 1) ((a :: t).drop k).length _
      (by simp only [List.length_drop, List.length_cons]; omega) (Nat.le_refl _)

/-- Fuel-indexed helper: concatenating the chunks reproduces the list. -/
theorem chunksOf_flatten_aux {α : Type} (k : Nat) :
    ∀ (n : Nat) (l : List α), l.length ≤ n → (chunksOf (k + 1) l).flatten = l := by
  intro n
  induction n with
  | zero =>
    intro l hl
    have : l = [] := List.length_eq_zero.mp (Nat.le_zero.mp hl)
    subst this
    simp [chunksOf_nil]
  | succ n ih =>
    intro l hl
    cases l with
    | nil => simp [chunksOf_nil]
    | cons a t =>
      simp only [List.length_cons] at hl
      rw [chunksOf_cons (k + 1) (by omega), List.flatten_cons]
      rw [ih ((a :: t).drop (k + 1)) (by simp only [List.length_drop, List.length_cons]; omega)]
      exact List.take_append_drop (k + 1) (a :: t)

/-- Concatenating the chunks of the partition reproduces the original cache. -/
theorem chunksOf_flatten {α : Type} (k : Nat) (hk : 1 ≤ k) (l : List α) :
    (chunksOf k l).flatten = l := by
  cases k with
  | zero => omega
  | succ k => exact chunksOf_flatten_aux k l.length l (Nat.le_refl _)

/-- Fuel-indexed helper: the partition produces `⌈len / k⌉` chunks. -/
theorem chunksOf_length_aux {α : Type} (k : Nat) :
    ∀ (n : Nat) (l : List α), l.length ≤ n →
      (chunksOf (k + 1) l).length = (l.length + k) / (k + 1) := by
  intro n
  induction n with
  | zero =>
    intro l hl
    have : l = [] := List.length_eq_zero.mp (Nat.le_zero.mp hl)
    subst this
    rw [chunksOf_nil]
    simp only [List.length_nil, Nat.zero_add]
    exact (Nat.div_eq_of_lt (by omega)).symm
  | succ n ih =>
    intro l hl
    cases l with
    | nil =>
      rw [chunksOf_nil]
      simp only [List.length_nil, Nat.zero_add]
      exact (Nat.div_eq_of_lt (by omega)).symm
    | cons a t =>
      simp only [List.length_cons] at hl
      rw [chunksOf_cons (k + 1) (by omega)]
      simp only [List.length_cons]
      rw [ih ((a :: t).drop (k + 1)) (by simp only [List.length_drop, List.length_cons]; omega)]
      simp only [List.length_drop, List.length_cons]
      rcases Nat.lt_or_ge (t.length + 1) (k + 1) with hlt | hge
      · have h1 : t.length + 1 - (k + 1) = 0 := by omega
        rw [h1]
        have h2 : (0 + k) / (k + 1) = 0 := Nat.div_eq_of_lt (by omega)
        have h3 : (t.length + 1 + k) / (k + 1) = 1 := by
          apply Nat.div_eq_of_lt_le
          · omega
          · omega
        omega
      · have h1 : t.length + 1 - (k + 1) + k = t.length := by omega
        have h2 : t.length + 1 + k = t.length + (k + 1) := by omega
        rw [h1, h2, Nat.add_div_right t.length (Nat.succ_pos k)]

/-- The partition produces exactly `⌈len / k⌉ = (len + k - 1) / k` chunks. -/
theorem chunksOf_length {α : Type} (k : Nat) (hk : 1 ≤ k) (l : List α) :
    (chunksOf k l).length = (l.length + k - 1) / k := by
  cases k with
  | zero => omega
  | succ k =>
    have h : l.length + (k + 1) - 1 = l.length + k := by omega
    rw [h]
    exact chunksOf_length_aux k l.length l (Nat.le_refl _)

/-- Fuel-indexed helper: every chunk holds at most `k` records. -/
theorem chunksOf_mem_length_aux {α : Type} (k : Nat) :
    ∀ (n : Nat) (l : List α), l.length ≤ n →
      ∀ c ∈ chunksOf (k + 1) l, c.length ≤ k + 1 := by
  intro n
  induction n with
  | zero =>
    intro l hl
    have : l = [] := List.length_eq_zero.mp (Nat.le_zero.mp hl)
    subst this
    simp [chunksOf_nil]
  | succ n ih =>
    intro l hl c hc
    cases l with
    | nil => simp [chunksOf_nil] at hc
    | cons a t =>
      simp only [List.length_cons] at hl
      rw [chunksOf_cons (k + 1) (by omega)] at hc
      rcases List.mem_cons.mp hc with h | h
      · subst h
        simpa using List.length_take_le (k + 1) (a :: t)
      · exact ih ((a :: t).drop (k + 1))
          (by simp only [List.length_drop, List.length_cons]; omega) c h

/-- Every chunk of the partition holds at most `k` records. -/
theorem chunksOf_mem_length {α : Type} (k : Nat) (hk : 1 ≤ k) (l : List α) :
    ∀ c ∈ chunksOf k l, c.length ≤ k := by
  cases k with
  | zero => omega
  | succ k => exact chunksOf_mem_length_aux k l.length l (Nat.le_refl _)

/-- Fuel-indexed helper: every chunk but the last holds exactly `k` records. -/
theorem chunksOf_dropLast_aux {α : Type} (k : Nat) :
    ∀ (n : Nat) (l : List α), l.length ≤ n →
      ∀ c ∈ (chunksOf (k + 1) l).dropLast, c.length = k + 1 := by
  intro n
  induction n with
  | zero =>
    intro l hl
    have : l = [] := List.length_eq_zero.mp (Nat.le_zero.mp hl)
    subst this
    simp [chunksOf_nil]
  | succ n ih =>
    intro l hl c hc
    cases l with
    | nil => simp [chunksOf_nil] at hc
    | cons a t =>
      simp only [List.length_cons] at hl
      rw [chunksOf_cons (k + 1) (by omega)] at hc
      cases hrest : chunksOf (k + 1) ((a :: t).drop (k + 1)) with
      | nil =>
        rw [hrest] at hc
        simp at hc
      | cons r rs =>
        rw [hrest] at hc
        have hdl : ((a :: t).take (k + 1) :: r :: rs).dropLast
            = (a :: t).take (k + 1) :: (r :: rs).dropLast := rfl
        rw [hdl] at hc
        rcases List.mem_cons.mp hc with hceq | hmem
        · subst hceq
          have hdne : (a :: t).drop (k + 1) ≠ [] := by
            intro hd
            rw [hd, chunksOf_nil] at hrest
            cases hrest
          have hlen : k + 1 ≤ t.length + 1 := by
            by_contra hcon
            apply hdne
            apply List.drop_eq_nil_of_le
            simp only [List.length_cons]
            omega
          rw [List.length_take]
          simp only [List.length_cons]
          omega
        · rw [← hrest] at hmem
          exact ih ((a :: t).drop (k + 1))
            (by simp only [List.length_drop, List.length_cons]; omega) c hmem

/-- Every chunk but (possibly) the last holds exactly `k` records. -/
theorem chunksOf_dropLast {α : Type} (k : Nat) (hk : 1 ≤ k) (l : List α) :
    ∀ c ∈ (chunksOf k l).dropLast, c.length = k := by
  cases k with
  | zero => omega
  | succ k => exact chunksOf_dropLast_aux k l.length l (Nat.le_refl _)

/-! ### The persistent key-value store (`localStorage`) and its failure model

The store holds three kinds of keys (knowledge.ts:8-12): the uploaded-file
list, the chunk count (a decimal string), and one key per chunk index.  The
file list is modelled post-JSON (as the parsed string list) and a chunk blob
is modelled post-compression (as the serialized record list): `compress` and
`JSON.stringify` are injective encodings whose round-trip is the identity.
Write calls (`setItem` / `removeItem`) may throw — e.g. on quota exhaustion —
which is modelled by an oracle consulted at each write, indexed by a running
clock of write operations. -/

/-- JavaScript whitespace as relevant to `\s` and `parseInt` trimming. -/
def jsWs (c : Char) : Bool :=
  c == ' ' || c == '\t' || c == '\n' || c == '\r' || c == '\x0b' || c == '\x0c'

/-- Decimal value of a digit run. -/
def parseNatDigits (cs : List Char) : Nat :=
  cs.foldl (fun a c => a * 10 + (c.toNat - 48)) 0

/-- The value of `parseInt(s, 10)` as used for loop bounds `i < count`:
leading whitespace is skipped, a leading `-` or a digit-free prefix yields a
value (`NaN` or negative) under which the `for` loops run zero times, which
this model maps to `0`. -/
def jsParseIntCount (s : String) : Nat :=
  match s.data.dropWhile jsWs with
  | '-' :: _ => 0
  | '+' :: rest => parseNatDigits (rest.takeWhile (fun c => c.isDigit))
  | cs => parseNatDigits (cs.takeWhile (fun c => c.isDigit))

/-- Model of `parseInt(localStorage.getItem(CHUNK_COUNT_KEY) || '0', 10)`
(knowledge.ts:24 and 57): an absent key reads as `'0'`. -/
def parseCountVal (v : Option String) : Nat :=
  match v with
  | none => 0
  | some s => jsParseIntCount s

/-- JavaScript `arr.slice(-k)`: the last `k` elements — except that `k = 0`
gives `slice(-0) = slice(0)`, the whole array. -/
def jsSliceFromNeg {α : Type} (k : Nat) (l : List α) : List α :=
  if k = 0 then l else l.drop (l.length - k)

/-- The chunk keys of the store: an association list from chunk index to the
persisted (compressed, serialized) record list.  Keys are kept distinct by
`cmSet` / `cmRemove`. -/
abbrev ChunkMap := List (Nat × List DataEntry)

/-- Model of `localStorage.getItem` on a chunk key. -/
def cmGet (m : ChunkMap) (i : Nat) : Option (List DataEntry) :=
  (m.find? (fun p => p.1 == i)).map Prod.snd

/-- Model of `localStorage.removeItem` on a chunk key. -/
def cmRemove (m : ChunkMap) (i : Nat) : ChunkMap :=
  m.filter (fun p => p.1 != i)

/-- Model of `localStorage.setItem` on a chunk key. -/
def cmSet (m : ChunkMap) (i : Nat) (v : List DataEntry) : ChunkMap :=
  (i, v) :: cmRemove m i

/-- Number of chunk blobs actually present under chunk keys. -/
def blobCount (m : ChunkMap) : Nat := m.length

theorem cmGet_set_self (m : ChunkMap) (i : Nat) (v : List DataEntry) :
    cmGet (cmSet m i v) i = some v := by
  simp [cmGet, cmSet, List.find?]

theorem cmGet_remove_ne (m : ChunkMap) (i j : Nat) (h : j ≠ i) :
    cmGet (cmRemove m i) j = cmGet m j := by
  induction m with
  | nil => rfl
  | cons p t ih =>
    simp only [cmRemove, List.filter]
    by_cases hpi : p.1 = i
    · have h1 : (p.1 != i) = false := by simp [hpi]
      have h2 : (p.1 == j) = false := by
        simp only [beq_eq_false_iff_ne, ne_eq]
        omega
      rw [h1]
      simp only [cmGet, List.find?, h2]
      exact ih
    · have h1 : (p.1 != i) = true := by simp [hpi]
      rw [h1]
      simp only [cmGet, List.find?]
      by_cases hpj : p.1 = j
      · have h2 : (p.1 == j) = true := by simp [hpj]
        rw [h2]
      · have h2 : (p.1 == j) = false := by simp [hpj]
        rw [h2]
        exact ih

theorem cmGet_set_ne (m : ChunkMap) (i j : Nat) (v : List DataEntry) (h : j ≠ i) :
    cmGet (cmSet m i v) j = cmGet m j := by
  have h2 : (i == j) = false := by
    simp only [beq_eq_false_iff_ne, ne_eq]
    omega
  simp only [cmSet, cmGet, List.find?, h2]
  exact cmGet_remove_ne m i j h

/-- The full key-value store state. -/
structure Store where
  filesVal : Option (List String)
  countVal : Option String
  chunks : ChunkMap
deriving Repr, DecidableEq

/-- Store plus the running clock of write operations, used to drive the
failure oracle. -/
structure KV where
  store : Store
  clock : Nat
deriving Repr, DecidableEq

/-- A write-failure pattern: `f n = true` means the `n`-th write call
(`setItem` or `removeItem`, counted from process start) throws. -/
abbrev Oracle := Nat → Bool

/-- The oracle under which every write succeeds. -/
def noFail : Oracle := fun _ => false

/-- Model of `localStorage.setItem(FILES_KEY, JSON.stringify(userUploadedFiles))`.
Returns the new state and `true`, or the (unchanged apart from the clock)
state and `false` when the write throws. -/
def setFilesOp (f : Oracle) (v : List String) (kv : KV) : KV × Bool :=
  match f kv.clock with
  | true => ({ kv with clock := kv.clock + 1 }, false)
  | false => ({ store := { kv.store with filesVal := some v }, clock := kv.clock + 1 }, true)

/-- Model of `localStorage.setItem(CHUNK_COUNT_KEY, chunks.length.toString())`. -/
def setCountOp (f : Oracle) (n : Nat) (kv : KV) : KV × Bool :=
  match f kv.clock with
  | true => ({ kv with clock := kv.clock + 1 }, false)
  | false =>
    ({ store := { kv.store with countVal := some (Nat.repr n) }, clock := kv.clock + 1 }, true)

/-- Model of `localStorage.setItem(CACHE_KEY_PREFIX + i, compress(JSON.stringify(chunk)))`. -/
def setChunkOp (f : Oracle) (i : Nat) (es : List DataEntry) (kv : KV) : KV × Bool :=
  match f kv.clock with
  | true => ({ kv with clock := kv.clock + 1 }, false)
  | false =>
    ({ store := { kv.store with chunks := cmSet kv.store.chunks i es },
       clock := kv.clock + 1 }, true)

/-- Model of `localStorage.removeItem(CACHE_KEY_PREFIX + i)`. -/
def removeChunkOp (f : Oracle) (i : Nat) (kv : KV) : KV × Bool :=
  match f kv.clock with
  | true => ({ kv with clock := kv.clock + 1 }, false)
  | false =>
    ({ store := { kv.store with chunks := cmRemove kv.store.chunks i },
       clock := kv.clock + 1 }, true)

/-- The stale-chunk deletion loop of `saveCachedData` (knowledge.ts:58-60):
`for (let i = 0; i < oldChunkCount; i++) removeItem(...)`.  A throw aborts the
loop and propagates (to the outer `catch`). -/
def removeRange (f : Oracle) : Nat → Nat → KV → KV × Bool
  | _, 0, kv => (kv, true)
  | i, n + 1, kv =>
    match removeChunkOp f i kv with
    | (kv1, false) => (kv1, false)
    | (kv1, true) => removeRange f (i + 1) n kv1

/-- The chunk-writing loop of `saveCachedData` (knowledge.ts:69-81):
`chunks.forEach((chunk, index) => { try { setItem(chunk) } catch { setItem(chunk.slice(0, floor(len * 0.7))) } })`.
A first write failure is retried once with the slice truncated to 70%; if the
retry also throws, the exception propagates out of `forEach` to the outer
`catch`, abandoning the remaining chunks. -/
def writeChunks (f : Oracle) : List (List DataEntry) → Nat → KV → KV × Bool
  | [], _, kv => (kv, true)
  | c :: rest, idx, kv =>
    match setChunkOp f idx c kv with
    | (kv1, true) => writeChunks f rest (idx + 1) kv1
    | (kv1, false) =>
      match setChunkOp f idx (c.take ((7 * c.length) / 10)) kv1 with
      | (kv2, true) => writeChunks f rest (idx + 1) kv2
      | (kv2, false) => (kv2, false)

/-- The body of the outer `try` of `saveCachedData` (knowledge.ts:54-83):
write the file list, delete the old chunks, partition, write the new chunks,
then write the new chunk count.  Returns `false` (with the state reached so
far) when any step threw. -/
def saveBody (f : Oracle) (files : List String) (cache : List DataEntry) (kv : KV) :
    KV × Bool :=
  match setFilesOp f files kv with
  | (kv1, false) => (kv1, false)
  | (kv1, true) =>
    match removeRange f 0 (parseCountVal kv1.store.countVal) kv1 with
    | (kv2, false) => (kv2, false)
    | (kv2, true) =>
      match writeChunks f (chunksOf ((cache.length + 39) / 40) cache) 0 kv2 with
      | (kv3, false) => (kv3, false)
      | (kv3, true) => setCountOp f (chunksOf ((cache.length + 39) / 40) cache).length kv3

/-- Model of `saveCachedData` (knowledge.ts:53-94) with its outer `catch`
(knowledge.ts:84-93): on failure the in-memory cache is pruned to
`cachedData.slice(-Math.floor(cachedData.length * 0.6))` and the whole save is
retried, inside an inner `try` whose own `catch` swallows everything.  The
recursion is fuel-indexed; exhausted fuel models the recursive call itself
throwing (the JavaScript engine's stack overflow), which the inner `catch` of
the frame above swallows.  The result carries the final in-memory cache and
store; an `Except.error` result would mean an exception escaped to the caller. -/
def saveCachedDataE (f : Oracle) (files : List String) :
    Nat → List DataEntry → KV → Except (List DataEntry × KV) (List DataEntry × KV)
  | fuel, cache, kv =>
    match saveBody f files cache kv with
    | (kv1, true) => Except.ok (cache, kv1)
    | (kv1, false) =>
      match fuel with
      | 0 => Except.ok (jsSliceFromNeg ((6 * cache.length) / 10) cache, kv1)
      | fuel' + 1 =>
        match saveCachedDataE f files fuel' (jsSliceFromNeg ((6 * cache.length) / 10) cache) kv1 with
        | Except.ok r => Except.ok r
        | Except.error r => Except.ok r

/-- The observable effect of `saveCachedData()`: the in-memory cache and the
store state on return (the function always returns normally). -/
def runSave (f : Oracle) (files : List String) (fuel : Nat) (cache : List DataEntry)
    (kv : KV) : List DataEntry × KV :=
  match saveCachedDataE f files fuel cache kv with
  | Except.ok r => r
  | Except.error r => r

/-- The chunk indices read back by `loadCachedData` (knowledge.ts:27):
`for (let i = 0; i < chunkCount; i++)`. -/
def loadReadIdx (st : Store) : List Nat :=
  List.range (parseCountVal st.countVal)

/-- Model of `loadCachedData` (knowledge.ts:17-48), started from a fresh process:
`cachedData` is reset to `[]` and each chunk in `[0, chunkCount)` that is
present is decompressed, parsed and appended in index order.  Returns the
rebuilt cache and uploaded-file list. -/
def loadCachedData (st : Store) : List DataEntry × List String :=
  ((loadReadIdx st).foldl (fun acc i => acc ++ ((cmGet st.chunks i).getD [])) [],
   st.filesVal.getD [])

/-! ### Lemmas about the save path -/

theorem parseCount_repr : ∀ m, m < 41 → jsParseIntCount (Nat.repr m) = m := by decide

theorem setFilesOp_countVal (f : Oracle) (v : List String) (kv : KV) :
    (setFilesOp f v kv).1.store.countVal = kv.store.countVal := by
  unfold setFilesOp
  cases f kv.clock <;> rfl

theorem setFilesOp_chunks (f : Oracle) (v : List String) (kv : KV) :
    (setFilesOp f v kv).1.store.chunks = kv.store.chunks := by
  unfold setFilesOp
  cases f kv.clock <;> rfl

theorem setFilesOp_ok_filesVal (f : Oracle) (v : List String) (kv kv1 : KV)
    (h : setFilesOp f v kv = (kv1, true)) : kv1.store.filesVal = some v := by
  unfold setFilesOp at h
  cases hc : f kv.clock <;> rw [hc] at h
  · cases h
    rfl
  · cases h

theorem setCountOp_chunks (f : Oracle) (n : Nat) (kv : KV) :
    (setCountOp f n kv).1.store.chunks = kv.store.chunks := by
  unfold setCountOp
  cases f kv.clock <;> rfl

theorem setCountOp_filesVal (f : Oracle) (n : Nat) (kv : KV) :
    (setCountOp f n kv).1.store.filesVal = kv.store.filesVal := by
  unfold setCountOp
  cases f kv.clock <;> rfl

theorem setCountOp_ok_countVal (f : Oracle) (n : Nat) (kv kv1 : KV)
    (h : setCountOp f n kv = (kv1, true)) : kv1.store.countVal = some (Nat.repr n) := by
  unfold setCountOp at h
  cases hc : f kv.clock <;> rw [hc] at h
  · cases h
    rfl
  · cases h

theorem setChunkOp_countVal (f : Oracle) (i : Nat) (es : List DataEntry) (kv : KV) :
    (setChunkOp f i es kv).1.store.countVal = kv.store.countVal := by
  unfold setChunkOp
  cases f kv.clock <;> rfl

theorem setChunkOp_filesVal (f : Oracle) (i : Nat) (es : List DataEntry) (kv : KV) :
    (setChunkOp f i es kv).1.store.filesVal = kv.store.filesVal := by
  unfold setChunkOp
  cases f kv.clock <;> rfl

theorem setChunkOp_get_ne (f : Oracle) (i : Nat) (es : List DataEntry) (kv : KV)
    (j : Nat) (hj : j ≠ i) :
    cmGet (setChunkOp f i es kv).1.store.chunks j = cmGet kv.store.chunks j := by
  unfold setChunkOp
  cases f kv.clock
  · exact cmGet_set_ne _ _ _ _ hj
  · rfl

theorem setChunkOp_ok_get (f : Oracle) (i : Nat) (es : List DataEntry) (kv kv1 : KV)
    (h : setChunkOp f i es kv = (kv1, true)) :
    cmGet kv1.store.chunks i = some es := by
  unfold setChunkOp at h
  cases hc : f kv.clock <;> rw [hc] at h
  · cases h
    exact cmGet_set_self _ _ _
  · cases h

theorem removeChunkOp_countVal (f : Oracle) (i : Nat) (kv : KV) :
    (removeChunkOp f i kv).1.store.countVal = kv.store.countVal := by
  unfold removeChunkOp
  cases f kv.clock <;> rfl

theorem removeChunkOp_filesVal (f : Oracle) (i : Nat) (kv : KV) :
    (removeChunkOp f i kv).1.store.filesVal = kv.store.filesVal := by
  unfold removeChunkOp
  cases f kv.clock <;> rfl

/-! Branch-unfolding equations for the loops. -/

theorem writeChunks_nil (f : Oracle) (idx : Nat) (kv : KV) :
    writeChunks f [] idx kv = (kv, true) := rfl

theorem writeChunks_cons_first (f : Oracle) (c : List DataEntry)
    (rest : List (List DataEntry)) (idx : Nat) (kv kv1 : KV)
    (h : setChunkOp f idx c kv = (kv1, true)) :
    writeChunks f (c :: rest) idx kv = writeChunks f rest (idx + 1) kv1 := by
  rw [writeChunks, h]

theorem writeChunks_cons_retry (f : Oracle) (c : List DataEntry)
    (rest : List (List DataEntry)) (idx : Nat) (kv kv1 kv2 : KV)
    (h1 : setChunkOp f idx c kv = (kv1, false))
    (h2 : setChunkOp f idx (c.take ((7 * c.length) / 10)) kv1 = (kv2, true)) :
    writeChunks f (c :: rest) idx kv = writeChunks f rest (idx + 1) kv2 := by
  rw [writeChunks, h1]
  show (match setChunkOp f idx (c.take ((7 * c.length) / 10)) kv1 with
    | (kv2, true) => writeChunks f rest (idx + 1) kv2
    | (kv2, false) => (kv2, false)) = _
  rw [h2]

theorem writeChunks_cons_fail (f : Oracle) (c : List DataEntry)
    (rest : List (List DataEntry)) (idx : Nat) (kv kv1 kv2 : KV)
    (h1 : setChunkOp f idx c kv = (kv1, false))
    (h2 : setChunkOp f idx (c.take ((7 * c.length) / 10)) kv1 = (kv2, false)) :
    writeChunks f (c :: rest) idx kv = (kv2, false) := by
  rw [writeChunks, h1]
  show (match setChunkOp f idx (c.take ((7 * c.length) / 10)) kv1 with
    | (kv2, true) => writeChunks f rest (idx + 1) kv2
    | (kv2, false) => (kv2, false)) = _
  rw [h2]

theorem removeRange_zero (f : Oracle) (i : Nat) (kv : KV) :
    removeRange f i 0 kv = (kv, true) := rfl

theorem removeRange_succ_ok (f : Oracle) (i n : Nat) (kv kv1 : KV)
    (h : removeChunkOp f i kv = (kv1, true)) :
    removeRange f i (n + 1) kv = removeRange f (i + 1) n kv1 := by
  rw [removeRange, h]

theorem removeRange_succ_fail (f : Oracle) (i n : Nat) (kv kv1 : KV)
    (h : removeChunkOp f i kv = (kv1, false)) :
    removeRange f i (n + 1) kv = (kv1, false) := by
  rw [removeRange, h]

theorem writeChunks_countVal (f : Oracle) :
    ∀ (cs : List (List DataEntry)) (idx : Nat) (kv : KV),
      (writeChunks f cs idx kv).1.store.countVal = kv.store.countVal := by
  intro cs
  induction cs with
  | nil => intro idx kv; rfl
  | cons c rest ih =>
    intro idx kv
    rcases hop : setChunkOp f idx c kv with ⟨kv1, b⟩
    have e1 : kv1.store.countVal = kv.store.countVal := by
      have := setChunkOp_countVal f idx c kv
      rw [hop] at this
      exact this
    cases b with
    | true => rw [writeChunks_cons_first f c rest idx kv kv1 hop, ih, e1]
    | false =>
      rcases hop2 : setChunkOp f idx (c.take ((7 * c.length) / 10)) kv1 with ⟨kv2, b2⟩
      have e2 : kv2.store.countVal = kv1.store.countVal := by
        have := setChunkOp_countVal f idx (c.take ((7 * c.length) / 10)) kv1
        rw [hop2] at this
        exact this
      cases b2 with
      | true => rw [writeChunks_cons_retry f c rest idx kv kv1 kv2 hop hop2, ih, e2, e1]
      | false =>
        rw [writeChunks_cons_fail f c rest idx kv kv1 kv2 hop hop2]
        show kv2.store.countVal = kv.store.countVal
        rw [e2, e1]

theorem writeChunks_filesVal (f : Oracle) :
    ∀ (cs : List (List DataEntry)) (idx : Nat) (kv : KV),
      (writeChunks f cs idx kv).1.store.filesVal = kv.store.filesVal := by
  intro cs
  induction cs with
  | nil => intro idx kv; rfl
  | cons c rest ih =>
    intro idx kv
    rcases hop : setChunkOp f idx c kv with ⟨kv1, b⟩
    have e1 : kv1.store.filesVal = kv.store.filesVal := by
      have := setChunkOp_filesVal f idx c kv
      rw [hop] at this
      exact this
    cases b with
    | true => rw [writeChunks_cons_first f c rest idx kv kv1 hop, ih, e1]
    | false =>
      rcases hop2 : setChunkOp f idx (c.take ((7 * c.length) / 10)) kv1 with ⟨kv2, b2⟩
      have e2 : kv2.store.filesVal = kv1.store.filesVal := by
        have := setChunkOp_filesVal f idx (c.take ((7 * c.length) / 10)) kv1
        rw [hop2] at this
        exact this
      cases b2 with
      | true => rw [writeChunks_cons_retry f c rest idx kv kv1 kv2 hop hop2, ih, e2, e1]
      | false =>
        rw [writeChunks_cons_fail f c rest idx kv kv1 kv2 hop hop2]
        show kv2.store.filesVal = kv.store.filesVal
        rw [e2, e1]

/-- The chunk-writing loop never touches chunk keys below its start index. -/
theorem writeChunks_get_lt (f : Oracle) :
    ∀ (cs : List (List DataEntry)) (idx : Nat) (kv : KV) (j : Nat), j < idx →
      cmGet (writeChunks f cs idx kv).1.store.chunks j = cmGet kv.store.chunks j := by
  intro cs
  induction cs with
  | nil => intro idx kv j _; rfl
  | cons c rest ih =>
    intro idx kv j hj
    rcases hop : setChunkOp f idx c kv with ⟨kv1, b⟩
    have e1 : cmGet kv1.store.chunks j = cmGet kv.store.chunks j := by
      have := setChunkOp_get_ne f idx c kv j (by omega)
      rw [hop] at this
      exact this
    cases b with
    | true =>
      rw [writeChunks_cons_first f c rest idx kv kv1 hop, ih (idx + 1) kv1 j (by omega), e1]
    | false =>
      rcases hop2 : setChunkOp f idx (c.take ((7 * c.length) / 10)) kv1 with ⟨kv2, b2⟩
      have e2 : cmGet kv2.store.chunks j = cmGet kv1.store.chunks j := by
        have := setChunkOp_get_ne f idx (c.take ((7 * c.length) / 10)) kv1 j (by omega)
        rw [hop2] at this
        exact this
      cases b2 with
      | true =>
        rw [writeChunks_cons_retry f c rest idx kv kv1 kv2 hop hop2,
          ih (idx + 1) kv2 j (by omega), e2, e1]
      | false =>
        rw [writeChunks_cons_fail f c rest idx kv kv1 kv2 hop hop2]
        show cmGet kv2.store.chunks j = cmGet kv.store.chunks j
        rw [e2, e1]

/-- If the chunk-writing loop completed, every chunk key it was responsible
for is present afterwards (holding either the full or the truncated slice). -/
theorem writeChunks_ok_isSome (f : Oracle) :
    ∀ (cs : List (List DataEntry)) (idx : Nat) (kv : KV),
      (writeChunks f cs idx kv).2 = true →
      ∀ k, k < cs.length →
        (cmGet (writeChunks f cs idx kv).1.store.chunks (idx + k)).isSome = true := by
  intro cs
  induction cs with
  | nil =>
    intro idx kv _ k hk
    simp at hk
  | cons c rest ih =>
    intro idx kv hok k hk
    rcases hop : setChunkOp f idx c kv with ⟨kv1, b⟩
    cases b with
    | true =>
      rw [writeChunks_cons_first f c rest idx kv kv1 hop] at hok ⊢
      cases k with
      | zero =>
        show (cmGet (writeChunks f rest (idx + 1) kv1).1.store.chunks idx).isSome = true
        rw [writeChunks_get_lt f rest (idx + 1) kv1 idx (by omega),
          setChunkOp_ok_get f idx c kv kv1 hop]
        rfl
      | succ k =>
        have h3 : idx + (k + 1) = (idx + 1) + k := by omega
        rw [h3]
        exact ih (idx + 1) kv1 hok k (by simp only [List.length_cons] at hk; omega)
    | false =>
      rcases hop2 : setChunkOp f idx (c.take ((7 * c.length) / 10)) kv1 with ⟨kv2, b2⟩
      cases b2 with
      | true =>
        rw [writeChunks_cons_retry f c rest idx kv kv1 kv2 hop hop2] at hok ⊢
        cases k with
        | zero =>
          show (cmGet (writeChunks f rest (idx + 1) kv2).1.store.chunks idx).isSome = true
          rw [writeChunks_get_lt f rest (idx + 1) kv2 idx (by omega),
            setChunkOp_ok_get f idx (c.take ((7 * c.length) / 10)) kv1 kv2 hop2]
          rfl
        | succ k =>
          have h3 : idx + (k + 1) = (idx + 1) + k := by omega
          rw [h3]
          exact ih (idx + 1) kv2 hok k (by simp only [List.length_cons] at hk; omega)
      | false =>
        rw [writeChunks_cons_fail f c rest idx kv kv1 kv2 hop hop2] at hok
        cases hok

theorem removeRange_countVal (f : Oracle) :
    ∀ (n i : Nat) (kv : KV),
      (removeRange f i n kv).1.store.countVal = kv.store.countVal := by
  intro n
  induction n with
  | zero => intro i kv; rfl
  | succ n ih =>
    intro i kv
    rcases hop : removeChunkOp f i kv with ⟨kv1, b⟩
    have e1 : kv1.store.countVal = kv.store.countVal := by
      have := removeChunkOp_countVal f i kv
      rw [hop] at this
      exact this
    cases b with
    | true => rw [removeRange_succ_ok f i n kv kv1 hop, ih, e1]
    | false =>
      rw [removeRange_succ_fail f i n kv kv1 hop]
      exact e1

theorem removeRange_filesVal (f : Oracle) :
    ∀ (n i : Nat) (kv : KV),
      (removeRange f i n kv).1.store.filesVal = kv.store.filesVal := by
  intro n
  induction n with
  | zero => intro i kv; rfl
  | succ n ih =>
    intro i kv
    rcases hop : removeChunkOp f i kv with ⟨kv1, b⟩
    have e1 : kv1.store.filesVal = kv.store.filesVal := by
      have := removeChunkOp_filesVal f i kv
      rw [hop] at this
      exact this
    cases b with
    | true => rw [removeRange_succ_ok f i n kv kv1 hop, ih, e1]
    | false =>
      rw [removeRange_succ_fail f i n kv kv1 hop]
      exact e1

/-! Branch-unfolding equations for `saveBody` and `saveCachedDataE`. -/

theorem saveBody_files_fail (f : Oracle) (files : List String) (cache : List DataEntry)
    (kv kv1 : KV) (h : setFilesOp f files kv = (kv1, false)) :
    saveBody f files cache kv = (kv1, false) := by
  rw [saveBody, h]

theorem saveBody_remove_fail (f : Oracle) (files : List String) (cache : List DataEntry)
    (kv kv1 kv2 : KV) (h1 : setFilesOp f files kv = (kv1, true))
    (h2 : removeRange f 0 (parseCountVal kv1.store.countVal) kv1 = (kv2, false)) :
    saveBody f files cache kv = (kv2, false) := by
  rw [saveBody, h1]
  show (match removeRange f 0 (parseCountVal kv1.store.countVal) kv1 with
    | (kv2, false) => (kv2, false)
    | (kv2, true) =>
      match writeChunks f (chunksOf ((cache.length + 39) / 40) cache) 0 kv2 with
      | (kv3, false) => (kv3, false)
      | (kv3, true) => setCountOp f (chunksOf ((cache.length + 39) / 40) cache).length kv3) = _
  rw [h2]

theorem saveBody_write_fail (f : Oracle) (files : List String) (cache : List DataEntry)
    (kv kv1 kv2 kv3 : KV) (h1 : setFilesOp f files kv = (kv1, true))
    (h2 : removeRange f 0 (parseCountVal kv1.store.countVal) kv1 = (kv2, true))
    (h3 : writeChunks f (chunksOf ((cache.length + 39) / 40) cache) 0 kv2 = (kv3, false)) :
    saveBody f files cache kv = (kv3, false) := by
  rw [saveBody, h1]
  show (match removeRange f 0 (parseCountVal kv1.store.countVal) kv1 with
    | (kv2, false) => (kv2, false)
    | (kv2, true) =>
      match writeChunks f (chunksOf ((cache.length + 39) / 40) cache) 0 kv2 with
      | (kv3, false) => (kv3, false)
      | (kv3, true) => setCountOp f (chunksOf ((cache.length + 39) / 40) cache).length kv3) = _
  rw [h2]
  show (match writeChunks f (chunksOf ((cache.length + 39) / 40) cache) 0 kv2 with
    | (kv3, false) => (kv3, false)
    | (kv3, true) => setCountOp f (chunksOf ((cache.length + 39) / 40) cache).length kv3) = _
  rw [h3]

theorem saveBody_stages_ok (f : Oracle) (files : List String) (cache : List DataEntry)
    (kv kv1 kv2 kv3 : KV) (h1 : setFilesOp f files kv = (kv1, true))
    (h2 : removeRange f 0 (parseCountVal kv1.store.countVal) kv1 = (kv2, true))
    (h3 : writeChunks f (chunksOf ((cache.length + 39) / 40) cache) 0 kv2 = (kv3, true)) :
    saveBody f files cache kv
      = setCountOp f (chunksOf ((cache.length + 39) / 40) cache).length kv3 := by
  rw [saveBody, h1]
  show (match removeRange f 0 (parseCountVal kv1.store.countVal) kv1 with
    | (kv2, false) => (kv2, false)
    | (kv2, true) =>
      match writeChunks f (chunksOf ((cache.length + 39) / 40) cache) 0 kv2 with
      | (kv3, false) => (kv3, false)
      | (kv3, true) => setCountOp f (chunksOf ((cache.length + 39) / 40) cache).length kv3) = _
  rw [h2]
  show (match writeChunks f (chunksOf ((cache.length + 39) / 40) cache) 0 kv2 with
    | (kv3, false) => (kv3, false)
    | (kv3, true) => setCountOp f (chunksOf ((cache.length + 39) / 40) cache).length kv3) = _
  rw [h3]

theorem saveE_ok_eq (f : Oracle) (files : List String) (fuel : Nat)
    (cache : List DataEntry) (kv kv1 : KV) (hb : saveBody f files cache kv = (kv1, true)) :
    saveCachedDataE f files fuel cache kv = Except.ok (cache, kv1) := by
  rw [saveCachedDataE, hb]

theorem saveE_fail_zero (f : Oracle) (files : List String)
    (cache : List DataEntry) (kv kv1 : KV) (hb : saveBody f files cache kv = (kv1, false)) :
    saveCachedDataE f files 0 cache kv
      = Except.ok (jsSliceFromNeg ((6 * cache.length) / 10) cache, kv1) := by
  rw [saveCachedDataE, hb]

theorem saveE_fail_succ (f : Oracle) (files : List String) (fuel : Nat)
    (cache : List DataEntry) (kv kv1 : KV) (hb : saveBody f files cache kv = (kv1, false)) :
    saveCachedDataE f files (fuel + 1) cache kv
      = match saveCachedDataE f files fuel (jsSliceFromNeg ((6 * cache.length) / 10) cache) kv1 with
        | Except.ok r => Except.ok r
        | Except.error r => Except.ok r := by
  rw [saveCachedDataE, hb]

/-- The function `saveCachedData` always returns normally: every branch of the
`try`/`catch` structure yields an `Except.ok` result. -/
theorem saveE_isOk (f : Oracle) (files : List String) (fuel : Nat)
    (cache : List DataEntry) (kv : KV) :
    ∃ r, saveCachedDataE f files fuel cache kv = Except.ok r := by
  rcases hb : saveBody f files cache kv with ⟨kv1, b⟩
  cases b with
  | true => exact ⟨(cache, kv1), saveE_ok_eq f files fuel cache kv kv1 hb⟩
  | false =>
    cases fuel with
    | zero =>
      exact ⟨(jsSliceFromNeg ((6 * cache.length) / 10) cache, kv1),
        saveE_fail_zero f files cache kv kv1 hb⟩
    | succ fuel =>
      rw [saveE_fail_succ f files fuel cache kv kv1 hb]
      rcases hr : saveCachedDataE f files fuel
          (jsSliceFromNeg ((6 * cache.length) / 10) cache) kv1 with r | r
      · exact ⟨r, rfl⟩
      · exact ⟨r, rfl⟩

theorem runSave_ok_eq (f : Oracle) (files : List String) (fuel : Nat)
    (cache : List DataEntry) (kv kv1 : KV) (hb : saveBody f files cache kv = (kv1, true)) :
    runSave f files fuel cache kv = (cache, kv1) := by
  rw [runSave, saveE_ok_eq f files fuel cache kv kv1 hb]

/-- The retry equation of the `catch` block: on a failed first pass, the save
runs again on the cache pruned to its most-recent-60% slice. -/
theorem runSave_fail_succ (f : Oracle) (files : List String) (fuel : Nat)
    (cache : List DataEntry) (kv kv1 : KV) (hb : saveBody f files cache kv = (kv1, false)) :
    runSave f files (fuel + 1) cache kv
      = runSave f files fuel (jsSliceFromNeg ((6 * cache.length) / 10) cache) kv1 := by
  rw [runSave, saveE_fail_succ f files fuel cache kv kv1 hb, runSave]
  rcases hr : saveCachedDataE f files fuel
      (jsSliceFromNeg ((6 * cache.length) / 10) cache) kv1 with r | r
  · rfl
  · rfl

/-- When the body of `saveCachedData` completes without throwing, the stored
chunk count equals the number of chunks of the new partition and every chunk
index below it holds a blob. -/
theorem saveBody_ok (f : Oracle) (files : List String) (cache : List DataEntry)
    (kv : KV) (h : (saveBody f files cache kv).2 = true) :
    (saveBody f files cache kv).1.store.countVal
        = some (Nat.repr (chunksOf ((cache.length + 39) / 40) cache).length)
      ∧ (∀ k, k < (chunksOf ((cache.length + 39) / 40) cache).length →
          (cmGet (saveBody f files cache kv).1.store.chunks k).isSome = true)
      ∧ (saveBody f files cache kv).1.store.filesVal = some files := by
  rcases h1 : setFilesOp f files kv with ⟨kv1, b1⟩
  cases b1 with
  | false =>
    rw [saveBody_files_fail f files cache kv kv1 h1] at h
    cases h
  | true =>
  rcases h2 : removeRange f 0 (parseCountVal kv1.store.countVal) kv1 with ⟨kv2, b2⟩
  cases b2 with
  | false =>
    rw [saveBody_remove_fail f files cache kv kv1 kv2 h1 h2] at h
    cases h
  | true =>
  rcases h3 : writeChunks f (chunksOf ((cache.length + 39) / 40) cache) 0 kv2 with ⟨kv3, b3⟩
  cases b3 with
  | false =>
    rw [saveBody_write_fail f files cache kv kv1 kv2 kv3 h1 h2 h3] at h
    cases h
  | true =>
  have hsb := saveBody_stages_ok f files cache kv kv1 kv2 kv3 h1 h2 h3
  rcases h4 : setCountOp f (chunksOf ((cache.length + 39) / 40) cache).length kv3 with ⟨kv4, b4⟩
  rw [hsb, h4] at h ⊢
  cases b4 with
  | false => cases h
  | true =>
  refine ⟨setCountOp_ok_countVal f _ kv3 kv4 h4, ?_, ?_⟩
  · intro k hk
    have hch : kv4.store.chunks = kv3.store.chunks := by
      have := setCountOp_chunks f (chunksOf ((cache.length + 39) / 40) cache).length kv3
      rw [h4] at this
      exact this
    have hw := writeChunks_ok_isSome f (chunksOf ((cache.length + 39) / 40) cache) 0 kv2
      (by rw [h3]) k hk
    rw [h3] at hw
    show (cmGet kv4.store.chunks k).isSome = true
    rw [hch]
    have hzk : (0 : Nat) + k = k := by omega
    rw [hzk] at hw
    exact hw
  · have hfv4 : kv4.store.filesVal = kv3.store.filesVal := by
      have := setCountOp_filesVal f (chunksOf ((cache.length + 39) / 40) cache).length kv3
      rw [h4] at this
      exact this
    have hfv3 : kv3.store.filesVal = kv2.store.filesVal := by
      have := writeChunks_filesVal f (chunksOf ((cache.length + 39) / 40) cache) 0 kv2
      rw [h3] at this
      exact this
    have hfv2 : kv2.store.filesVal = kv1.store.filesVal := by
      have := removeRange_filesVal f (parseCountVal kv1.store.countVal) 0 kv1
      rw [h2] at this
      exact this
    have hfv1 : kv1.store.filesVal = some files := setFilesOp_ok_filesVal f files kv kv1 h1
    show kv4.store.filesVal = some files
    rw [hfv4, hfv3, hfv2, hfv1]

/-! ### Lemmas under the no-failure oracle -/

theorem setFilesOp_hf (f : Oracle) (hf : ∀ n, f n = false) (v : List String) (kv : KV) :
    setFilesOp f v kv
      = ({ store := { kv.store with filesVal := some v }, clock := kv.clock + 1 }, true) := by
  unfold setFilesOp
  rw [hf kv.clock]

theorem setCountOp_hf (f : Oracle) (hf : ∀ n, f n = false) (n : Nat) (kv : KV) :
    setCountOp f n kv
      = ({ store := { kv.store with countVal := some (Nat.repr n) },
           clock := kv.clock + 1 }, true) := by
  unfold setCountOp
  rw [hf kv.clock]

theorem setChunkOp_hf (f : Oracle) (hf : ∀ n, f n = false) (i : Nat)
    (es : List DataEntry) (kv : KV) :
    setChunkOp f i es kv
      = ({ store := { kv.store with chunks := cmSet kv.store.chunks i es },
           clock := kv.clock + 1 }, true) := by
  unfold setChunkOp
  rw [hf kv.clock]

theorem removeChunkOp_hf (f : Oracle) (hf : ∀ n, f n = false) (i : Nat) (kv : KV) :
    removeChunkOp f i kv
      = ({ store := { kv.store with chunks := cmRemove kv.store.chunks i },
           clock := kv.clock + 1 }, true) := by
  unfold removeChunkOp
  rw [hf kv.clock]

theorem removeRange_hf_ok (f : Oracle) (hf : ∀ n, f n = false) :
    ∀ (n i : Nat) (kv : KV), (removeRange f i n kv).2 = true := by
  intro n
  induction n with
  | zero => intro i kv; rfl
  | succ n ih =>
    intro i kv
    rw [removeRange_succ_ok f i n kv _ (removeChunkOp_hf f hf i kv)]
    exact ih (i + 1) _

theorem writeChunks_hf_ok (f : Oracle) (hf : ∀ n, f n = false) :
    ∀ (cs : List (List DataEntry)) (idx : Nat) (kv : KV),
      (writeChunks f cs idx kv).2 = true := by
  intro cs
  induction cs with
  | nil => intro idx kv; rfl
  | cons c rest ih =>
    intro idx kv
    rw [writeChunks_cons_first f c rest idx kv _ (setChunkOp_hf f hf idx c kv)]
    exact ih (idx + 1) _

/-- With no write failures, every chunk key ends up holding exactly its slice
of the partition. -/
theorem writeChunks_hf_get (f : Oracle) (hf : ∀ n, f n = false) :
    ∀ (cs : List (List DataEntry)) (idx : Nat) (kv : KV) (k : Nat) (hk : k < cs.length),
      cmGet (writeChunks f cs idx kv).1.store.chunks (idx + k) = some (cs.get ⟨k, hk⟩) := by
  intro cs
  induction cs with
  | nil =>
    intro idx kv k hk
    simp at hk
  | cons c rest ih =>
    intro idx kv k hk
    rw [writeChunks_cons_first f c rest idx kv _ (setChunkOp_hf f hf idx c kv)]
    cases k with
    | zero =>
      show (cmGet (writeChunks f rest (idx + 1) _).1.store.chunks idx) = some c
      rw [writeChunks_get_lt f rest (idx + 1) _ idx (by omega)]
      exact cmGet_set_self _ _ _
    | succ k =>
      have h3 : idx + (k + 1) = (idx + 1) + k := by omega
      rw [h3]
      exact ih (idx + 1) _ k (by simp only [List.length_cons] at hk; omega)

/-- With no write failures, the body of `saveCachedData` completes, and the
resulting store holds the file list, the chunk count of the partition, and
each chunk of the partition under its own key. -/
theorem saveBody_hf (f : Oracle) (hf : ∀ n, f n = false) (files : List String)
    (cache : List DataEntry) (kv : KV) :
    (saveBody f files cache kv).2 = true
      ∧ (saveBody f files cache kv).1.store.countVal
          = some (Nat.repr (chunksOf ((cache.length + 39) / 40) cache).length)
      ∧ (∀ k (hk : k < (chunksOf ((cache.length + 39) / 40) cache).length),
          cmGet (saveBody f files cache kv).1.store.chunks k
            = some ((chunksOf ((cache.length + 39) / 40) cache).get ⟨k, hk⟩))
      ∧ (saveBody f files cache kv).1.store.filesVal = some files := by
  rcases h1 : setFilesOp f files kv with ⟨kv1, b1⟩
  have hb1 : b1 = true := by
    have := setFilesOp_hf f hf files kv
    rw [h1] at this
    cases this
    rfl
  subst hb1
  rcases h2 : removeRange f 0 (parseCountVal kv1.store.countVal) kv1 with ⟨kv2, b2⟩
  have hb2 : b2 = true := by
    have := removeRange_hf_ok f hf (parseCountVal kv1.store.countVal) 0 kv1
    rw [h2] at this
    exact this
  subst hb2
  rcases h3 : writeChunks f (chunksOf ((cache.length + 39) / 40) cache) 0 kv2 with ⟨kv3, b3⟩
  have hb3 : b3 = true := by
    have := writeChunks_hf_ok f hf (chunksOf ((cache.length + 39) / 40) cache) 0 kv2
    rw [h3] at this
    exact this
  subst hb3
  have hsb := saveBody_stages_ok f files cache kv kv1 kv2 kv3 h1 h2 h3
  rw [hsb, setCountOp_hf f hf _ kv3]
  refine ⟨rfl, rfl, ?_, ?_⟩
  · intro k hk
    show cmGet kv3.store.chunks k = _
    have hw := writeChunks_hf_get f hf (chunksOf ((cache.length + 39) / 40) cache) 0 kv2 k hk
    rw [h3] at hw
    have hzk : (0 : Nat) + k = k := by omega
    rw [hzk] at hw
    exact hw
  · show kv3.store.filesVal = some files
    have hfv3 : kv3.store.filesVal = kv2.store.filesVal := by
      have := writeChunks_filesVal f (chunksOf ((cache.length + 39) / 40) cache) 0 kv2
      rw [h3] at this
      exact this
    have hfv2 : kv2.store.filesVal = kv1.store.filesVal := by
      have := removeRange_filesVal f (parseCountVal kv1.store.countVal) 0 kv1
      rw [h2] at this
      exact this
    have hfv1 : kv1.store.filesVal = some files := by
      have := setFilesOp_hf f hf files kv
      rw [h1] at this
      cases this
      rfl
    rw [hfv3, hfv2, hfv1]

/-- The number of chunks `saveCachedData` produces never exceeds
`MAX_CHUNKS = 40`. -/
theorem saveChunks_le_40 (cache : List DataEntry) :
    (chunksOf ((cache.length + 39) / 40) cache).length ≤ 40 := by
  rcases Nat.eq_zero_or_pos cache.length with h0 | hpos
  · have : cache = [] := List.length_eq_zero.mp h0
    subst this
    rw [chunksOf_nil]
    simp
  · have hk : 1 ≤ (cache.length + 39) / 40 := by omega
    rw [chunksOf_length _ hk]
    have hlt : (cache.length + (cache.length + 39) / 40 - 1) / ((cache.length + 39) / 40)
        < 41 := by
      rw [Nat.div_lt_iff_lt_mul (by omega)]
      omega
    omega

/-! ### Lemmas about the load path -/

theorem foldl_append_range (g : Nat → List DataEntry) :
    ∀ (n : Nat) (acc : List DataEntry),
      (List.range n).foldl (fun a i => a ++ g i) acc
        = acc ++ ((List.range n).map g).flatten := by
  intro n
  induction n with
  | zero => intro acc; simp
  | succ n ih =>
    intro acc
    rw [List.range_succ, List.foldl_append, ih]
    simp

/-- If the stored count is the length of a chunk list and each chunk key
below it holds the corresponding chunk, the restore rebuilds their
concatenation. -/
theorem loadCachedData_of_chunks (st : Store) (cs : List (List DataEntry))
    (hcount : parseCountVal st.countVal = cs.length)
    (hget : ∀ k (hk : k < cs.length), cmGet st.chunks k = some (cs.get ⟨k, hk⟩)) :
    (loadCachedData st).1 = cs.flatten := by
  show (loadReadIdx st).foldl (fun acc i => acc ++ ((cmGet st.chunks i).getD [])) [] = _
  rw [loadReadIdx, hcount, foldl_append_range, List.nil_append]
  congr 1
  apply List.ext_get
  · simp
  · intro i h1 h2
    have hi : i < cs.length := by simpa using h2
    have hr : (List.range cs.length).get ⟨i, by simpa using h1⟩ = i := by
      simp
    rw [List.get_map, hr, hget i hi]
    rfl

/-! ### Concrete fixtures used by counterexamples and witnesses -/

/-- A record as left behind by an earlier session (a stale chunk blob). -/
def staleEntry : DataEntry :=
  { fields := [("y", "2")], source := "old.csv", content := "y: 2" }

/-- A freshly ingested record. -/
def freshEntry : DataEntry :=
  { fields := [("x", "1")], source := "a.csv", content := "x: 1" }

/-- A store already holding a stale chunk blob at index 5 while the persisted
count says 0 — a perfectly reachable `localStorage` state. -/
def dirtyKV : KV :=
  { store := { filesVal := none, countVal := some "0", chunks := [(5, [staleEntry])] },
    clock := 0 }

/-- An empty store. -/
def kvEmpty : KV :=
  { store := { filesVal := none, countVal := none, chunks := [] }, clock := 0 }

/-- An oracle whose first write throws (e.g. quota exhausted once). -/
def failFirst : Oracle := fun n => n == 0

/-- A small numbered record for bulk fixtures. -/
def numEntry (i : Nat) : DataEntry :=
  { fields := [("n", Nat.repr i)], source := "f.csv", content := "n: " ++ Nat.repr i }

def cacheFour : List DataEntry := [numEntry 0, numEntry 1, numEntry 2, numEntry 3]

def cacheTen : List DataEntry := (List.range 10).map numEntry

/-! ### Claims C2, C3, C5, C9 -/

/-- C2 is false as stated: with a dirty initial store (a stale blob at chunk
index 5, persisted count "0") and no write failure at all, a completed
persist of a one-record cache stores chunk count 1 while two chunk blobs are
present, because `saveCachedData` only deletes indices below the *old* count. -/
theorem C2_counterexample :
    parseCountVal (runSave noFail [] 1 [freshEntry] dirtyKV).2.store.countVal = 1
      ∧ blobCount (runSave noFail [] 1 [freshEntry] dirtyKV).2.store.chunks = 2 := by
  constructor
  · rfl
  · rfl

/-- C2 (amended): after a persist pass that completes without throwing, the
persisted chunk count equals the partition's chunk count and every chunk
index below it holds a blob (stale blobs at indices at or above the count may
remain); and `loadCachedData` reads no chunk index at or above the persisted
count. -/
theorem C2_amended (f : Oracle) (files : List String) (cache : List DataEntry) (kv : KV)
    (h : (saveBody f files cache kv).2 = true) :
    parseCountVal (saveBody f files cache kv).1.store.countVal
        = (chunksOf ((cache.length + 39) / 40) cache).length
      ∧ (∀ k, k < parseCountVal (saveBody f files cache kv).1.store.countVal →
          (cmGet (saveBody f files cache kv).1.store.chunks k).isSome = true)
      ∧ ((loadReadIdx (saveBody f files cache kv).1.store).all
          (fun i => decide (i < parseCountVal (saveBody f files cache kv).1.store.countVal))
            = true) := by
  obtain ⟨hcv, hsome, _⟩ := saveBody_ok f files cache kv h
  have hle : (chunksOf ((cache.length + 39) / 40) cache).length ≤ 40 := saveChunks_le_40 cache
  have hp : parseCountVal (saveBody f files cache kv).1.store.countVal
      = (chunksOf ((cache.length + 39) / 40) cache).length := by
    rw [hcv]
    exact parseCount_repr _ (by omega)
  refine ⟨hp, ?_, ?_⟩
  · intro k hk
    rw [hp] at hk
    exact hsome k hk
  · rw [List.all_eq_true]
    intro i hi
    rw [loadReadIdx] at hi
    simpa using List.mem_range.mp hi

theorem C2_witness :
    ((saveBody noFail [] [freshEntry] dirtyKV).2 = true)
      ∧ (parseCountVal (saveBody noFail [] [freshEntry] dirtyKV).1.store.countVal
            = (chunksOf ((([freshEntry] : List DataEntry).length + 39) / 40) [freshEntry]).length
          ∧ (∀ k, k < parseCountVal (saveBody noFail [] [freshEntry] dirtyKV).1.store.countVal →
              (cmGet (saveBody noFail [] [freshEntry] dirtyKV).1.store.chunks k).isSome = true)
          ∧ ((loadReadIdx (saveBody noFail [] [freshEntry] dirtyKV).1.store).all
              (fun i =>
                decide (i < parseCountVal (saveBody noFail [] [freshEntry] dirtyKV).1.store.countVal))
                = true)) :=
  ⟨by decide, C2_amended noFail [] [freshEntry] dirtyKV (by decide)⟩

/-- C3: for every write-failure pattern, every cache and every initial store
state, `saveCachedData` returns normally — the result of its embedding is
always `Except.ok`, never an escaped exception. -/
theorem C3_save_never_throws (f : Oracle) (files : List String) (fuel : Nat)
    (cache : List DataEntry) (kv : KV) :
    ∃ r, saveCachedDataE f files fuel cache kv = Except.ok r :=
  saveE_isOk f files fuel cache kv

/-- C5: if every store write succeeds, persisting and then restoring on a
fresh process rebuilds exactly the original cache — hence the same total
record count and the same per-`source` record grouping. -/
theorem C5_roundtrip (f : Oracle) (hf : ∀ n, f n = false) (files : List String)
    (cache : List DataEntry) (kv : KV) :
    (saveBody f files cache kv).2 = true
      ∧ (loadCachedData (saveBody f files cache kv).1.store).1 = cache
      ∧ (loadCachedData (saveBody f files cache kv).1.store).1.length = cache.length
      ∧ ∀ s : String,
          (loadCachedData (saveBody f files cache kv).1.store).1.filter
              (fun e => e.source == s)
            = cache.filter (fun e => e.source == s) := by
  obtain ⟨hok, hcv, hget, _⟩ := saveBody_hf f hf files cache kv
  have hle : (chunksOf ((cache.length + 39) / 40) cache).length ≤ 40 := saveChunks_le_40 cache
  have hcount : parseCountVal (saveBody f files cache kv).1.store.countVal
      = (chunksOf ((cache.length + 39) / 40) cache).length := by
    rw [hcv]
    exact parseCount_repr _ (by omega)
  have hload := loadCachedData_of_chunks (saveBody f files cache kv).1.store
    (chunksOf ((cache.length + 39) / 40) cache) hcount hget
  have hflat : (chunksOf ((cache.length + 39) / 40) cache).flatten = cache := by
    rcases Nat.eq_zero_or_pos cache.length with h0 | hpos
    · have : cache = [] := List.length_eq_zero.mp h0
      subst this
      rw [chunksOf_nil]
      rfl
    · exact chunksOf_flatten _ (by omega) cache
  rw [hload, hflat]
  exact ⟨hok, rfl, rfl, fun s => rfl⟩

theorem C5_witness :
    (∀ n, noFail n = false)
      ∧ ((saveBody noFail [] [freshEntry, staleEntry] kvEmpty).2 = true
        ∧ (loadCachedData (saveBody noFail [] [freshEntry, staleEntry] kvEmpty).1.store).1
            = [freshEntry, staleEntry]
        ∧ (loadCachedData (saveBody noFail [] [freshEntry, staleEntry] kvEmpty).1.store).1.length
            = ([freshEntry, staleEntry] : List DataEntry).length
        ∧ ∀ s : String,
            (loadCachedData (saveBody noFail [] [freshEntry, staleEntry] kvEmpty).1.store).1.filter
                (fun e => e.source == s)
              = ([freshEntry, staleEntry] : List DataEntry).filter (fun e => e.source == s)) :=
  ⟨fun _ => rfl, C5_roundtrip noFail (fun _ => rfl) [] [freshEntry, staleEntry] kvEmpty⟩

/-- C9 is false in its "up to 40%" part: on a four-record cache whose first
persist write throws (and whose retry then succeeds), the surviving in-memory
cache is the last two records — 50% of the records are dropped, more than
40%. -/
theorem C9_counterexample :
    (runSave failFirst [] 2 cacheFour kvEmpty).1 = [numEntry 2, numEntry 3]
      ∧ 10 * (cacheFour.length - (runSave failFirst [] 2 cacheFour kvEmpty).1.length)
          > 4 * cacheFour.length := by
  constructor
  · rfl
  · decide

/-- C9 (amended): when the first pass of `saveCachedData` throws, the
in-memory cache itself is replaced by its most-recent
`floor(0.6·n)`-element suffix and the whole save is retried on it; for caches
of at least two records this drops at least 40% of the in-memory records. -/
theorem C9_amended (f : Oracle) (files : List String) (fuel : Nat)
    (cache : List DataEntry) (kv : KV)
    (h : (saveBody f files cache kv).2 = false) :
    runSave f files (fuel + 1) cache kv
        = runSave f files fuel (jsSliceFromNeg ((6 * cache.length) / 10) cache)
            (saveBody f files cache kv).1
      ∧ (2 ≤ cache.length →
          10 * (cache.length - (jsSliceFromNeg ((6 * cache.length) / 10) cache).length)
            ≥ 4 * cache.length) := by
  constructor
  · rcases hsb : saveBody f files cache kv with ⟨kv1, b⟩
    have hb2 : b = false := by
      rw [hsb] at h
      exact h
    subst hb2
    exact runSave_fail_succ f files fuel cache kv kv1 hsb
  · intro h2
    have hlen : (jsSliceFromNeg ((6 * cache.length) / 10) cache).length
        = (6 * cache.length) / 10 := by
      rw [jsSliceFromNeg]
      have hne : ¬((6 * cache.length) / 10 = 0) := by omega
      rw [if_neg hne, List.length_drop]
      omega
    rw [hlen]
    omega

theorem C9_witness :
    ((saveBody failFirst [] cacheTen kvEmpty).2 = false)
      ∧ (runSave failFirst [] (1 + 1) cacheTen kvEmpty
            = runSave failFirst [] 1 (jsSliceFromNeg ((6 * cacheTen.length) / 10) cacheTen)
                (saveBody failFirst [] cacheTen kvEmpty).1
          ∧ (2 ≤ cacheTen.length →
              10 * (cacheTen.length - (jsSliceFromNeg ((6 * cacheTen.length) / 10) cacheTen).length)
                ≥ 4 * cacheTen.length)) :=
  ⟨by decide, C9_amended failFirst [] 1 cacheTen kvEmpty (by decide)⟩

/-! ### Claim C4: the partition arithmetic -/

/-- C4: for a non-empty cache, `saveCachedData` partitions it into contiguous
slices of `itemsPerChunk = ⌈n/40⌉` records (every chunk but the last exactly
that long, none longer), producing exactly `⌈n/itemsPerChunk⌉` chunks, and
that chunk count never exceeds `MAX_CHUNKS = 40`. -/
theorem C4_partition (cache : List DataEntry) (h : 1 ≤ cache.length) :
    (chunksOf ((cache.length + 39) / 40) cache).flatten = cache
      ∧ (chunksOf ((cache.length + 39) / 40) cache).length
          = (cache.length + (cache.length + 39) / 40 - 1) / ((cache.length + 39) / 40)
      ∧ (chunksOf ((cache.length + 39) / 40) cache).length ≤ 40
      ∧ (∀ c ∈ chunksOf ((cache.length + 39) / 40) cache,
          c.length ≤ (cache.length + 39) / 40)
      ∧ (∀ c ∈ (chunksOf ((cache.length + 39) / 40) cache).dropLast,
          c.length = (cache.length + 39) / 40) := by
  have hk : 1 ≤ (cache.length + 39) / 40 := by omega
  exact ⟨chunksOf_flatten _ hk cache, chunksOf_length _ hk cache, saveChunks_le_40 cache,
    chunksOf_mem_length _ hk cache, chunksOf_dropLast _ hk cache⟩

theorem C4_witness :
    1 ≤ cacheTen.length
      ∧ ((chunksOf ((cacheTen.length + 39) / 40) cacheTen).flatten = cacheTen
        ∧ (chunksOf ((cacheTen.length + 39) / 40) cacheTen).length
            = (cacheTen.length + (cacheTen.length + 39) / 40 - 1) / ((cacheTen.length + 39) / 40)
        ∧ (chunksOf ((cacheTen.length + 39) / 40) cacheTen).length ≤ 40
        ∧ (∀ c ∈ chunksOf ((cacheTen.length + 39) / 40) cacheTen,
            c.length ≤ (cacheTen.length + 39) / 40)
        ∧ (∀ c ∈ (chunksOf ((cacheTen.length + 39) / 40) cacheTen).dropLast,
            c.length = (cacheTen.length + 39) / 40)) :=
  ⟨by decide, C4_partition cacheTen (by decide)⟩

/-! ### Claim C1: citation markers in the ingestion paths -/

/-- C1 is false as stated: a CSV file uploaded by the user (`isBackend =
false`, i.e. the `File` branch of `processCsvFile`) still gets its `content`
prefixed with the `【1:1†source】` citation marker. -/
theorem C1_counterexample :
    (processCsvRows false "a.csv" [[("x", "1")]]).map DataEntry.content
        = [sourceRef 0 ++ rowContent [("x", "1")]]
      ∧ sourceRef 0 ++ rowContent [("x", "1")] = "【1:1†source】x: 1"
      ∧ (processCsvRows false "a.csv" [[("x", "1")]]).map DataEntry.source = ["a.csv"] := by
  refine ⟨?_, ?_, ?_⟩ <;> rfl

/-- C1 (amended): every record produced by the CSV path — backend fetch *and*
user upload alike — has its `content` prefixed with the sequential one-based
citation marker for its position in the batch, while records from the Excel
(spreadsheet) path carry the bare joined content with no marker; `source` is
the backend identifier exactly when the batch came from the backend fetch. -/
theorem C1_amended (isB : Bool) (fileName : String) (rows : List (List (String × String))) :
    ((processCsvRows isB fileName rows).enum.map (fun p => p.2.content)
        = (rows.filter rowNonEmpty).enum.map (fun p => sourceRef p.1 ++ rowContent p.2))
      ∧ ((processCsvRows isB fileName rows).map DataEntry.source
          = (rows.filter rowNonEmpty).map (fun _ => if isB then backendSource else fileName))
      ∧ ((processExcelRows fileName rows).map DataEntry.content
          = (rows.filter rowNonEmpty).map rowContent)
      ∧ ((processExcelRows fileName rows).map DataEntry.source
          = (rows.filter rowNonEmpty).map (fun _ => fileName)) := by
  have hsnd : ∀ (l : List DataEntry),
      l.enum.map (fun p => p.2.content) = l.map (fun e => e.content) := by
    intro l
    rw [show (fun p : Nat × DataEntry => p.2.content)
        = (fun e : DataEntry => e.content) ∘ Prod.snd from rfl]
    rw [← List.map_map, List.enum_map_snd]
  refine ⟨?_, ?_, ?_, ?_⟩
  · unfold processCsvRows
    rw [hsnd, List.map_map]
    rfl
  · unfold processCsvRows
    rw [List.map_map]
    have h1 : ((rows.filter rowNonEmpty).enum.map
        (DataEntry.source ∘ (fun p : Nat × List (String × String) =>
          ({ fields := p.2, source := if isB then backendSource else fileName,
             content := sourceRef p.1 ++ rowContent p.2 } : DataEntry))))
        = (rows.filter rowNonEmpty).enum.map
            (fun _ => if isB then backendSource else fileName) := rfl
    rw [h1, List.map_const', List.map_const', List.enum_length]
  · unfold processExcelRows
    rw [List.map_map]
    rfl
  · unfold processExcelRows
    rw [List.map_map]
    have h1 : ((rows.filter rowNonEmpty).map
        (DataEntry.source ∘ (fun row : List (String × String) =>
          ({ fields := row, source := fileName, content := rowContent row } : DataEntry))))
        = (rows.filter rowNonEmpty).map (fun _ => fileName) := rfl
    rw [h1]

/-! ### Claim C6: re-ingesting a file replaces its batch -/

/-- The cache/file-list update and persist of `processFile`
(knowledge.ts:192-221): drop all records whose `source` equals the file name,
append the new batch, register the file name if new, then `saveCachedData()`
(whose failure path may prune the in-memory cache). -/
def ingestFileStep (f : Oracle) (fuel : Nat) (name : String) (data : List DataEntry)
    (st : List DataEntry × List String × KV) : List DataEntry × List String × KV :=
  ((runSave f
      (if st.2.1.contains name then st.2.1 else st.2.1 ++ [name]) fuel
      (st.1.filter (fun e => e.source != name) ++ data) st.2.2).1,
   (if st.2.1.contains name then st.2.1 else st.2.1 ++ [name]),
   (runSave f
      (if st.2.1.contains name then st.2.1 else st.2.1 ++ [name]) fuel
      (st.1.filter (fun e => e.source != name) ++ data) st.2.2).2)

/-- Under a no-failure oracle the persist step returns the cache unchanged. -/
theorem runSave_hf_cache (f : Oracle) (hf : ∀ n, f n = false) (files : List String)
    (fuel : Nat) (cache : List DataEntry) (kv : KV) :
    (runSave f files fuel cache kv).1 = cache := by
  rcases hsb : saveBody f files cache kv with ⟨kv1, b⟩
  have hb : b = true := by
    have := (saveBody_hf f hf files cache kv).1
    rw [hsb] at this
    exact this
  subst hb
  rw [runSave_ok_eq f files fuel cache kv kv1 hsb]

/-- A record batch with `source = a.csv`, as produced by an upload of that
file. -/
def csvRec (i : Nat) : DataEntry :=
  { fields := [("c", Nat.repr i)], source := "a.csv", content := "c: " ++ Nat.repr i }

def batchOne : List DataEntry := [csvRec 0]

def batchFourCsv : List DataEntry := [csvRec 1, csvRec 2, csvRec 3, csvRec 4]

/-- An oracle whose fourth write throws — which in the fixture below is the
first write of the second ingest's persist. -/
def orcQuota : Oracle := fun n => n == 3

/-- C6 is false as stated: with a storage write failing during the second
ingest's persist, `saveCachedData`'s catch path prunes the in-memory cache,
so after two completed ingests of `a.csv` (both of which return normally to
the caller) only 2 of the second batch's 4 records remain cached. -/
theorem C6_counterexample :
    (((ingestFileStep orcQuota 2 "a.csv" batchFourCsv
          (ingestFileStep orcQuota 2 "a.csv" batchOne ([], [], kvEmpty))).1).filter
        (fun e => e.source == "a.csv")).length = 2
      ∧ batchFourCsv.length = 4 := by
  constructor
  · rfl
  · rfl

/-- C6 (amended): provided no store write fails during the two ingests (so
the internal persist never prunes the cache), re-ingesting a file named
`name` leaves exactly the second batch under that `source` and leaves every
record with a different `source` untouched. -/
theorem C6_amended (f : Oracle) (hf : ∀ n, f n = false) (fuel1 fuel2 : Nat) (name : String)
    (d1 d2 : List DataEntry) (cache : List DataEntry) (files : List String) (kv : KV)
    (h1 : ∀ e ∈ d1, e.source = name) (h2 : ∀ e ∈ d2, e.source = name) :
    ((ingestFileStep f fuel2 name d2
          (ingestFileStep f fuel1 name d1 (cache, files, kv))).1.filter
        (fun e => e.source == name)).length = d2.length
      ∧ (ingestFileStep f fuel2 name d2
            (ingestFileStep f fuel1 name d1 (cache, files, kv))).1.filter
          (fun e => e.source != name)
        = cache.filter (fun e => e.source != name) := by
  have hst1 : (ingestFileStep f fuel1 name d1 (cache, files, kv)).1
      = cache.filter (fun e => e.source != name) ++ d1 := by
    show (runSave f _ fuel1 _ _).1 = _
    rw [runSave_hf_cache f hf _ fuel1 _ _]
  have hst2 : (ingestFileStep f fuel2 name d2
      (ingestFileStep f fuel1 name d1 (cache, files, kv))).1
      = (ingestFileStep f fuel1 name d1 (cache, files, kv)).1.filter
          (fun e => e.source != name) ++ d2 := by
    show (runSave f _ fuel2 _ _).1 = _
    rw [runSave_hf_cache f hf _ fuel2 _ _]
  have hd1nil : d1.filter (fun e => e.source != name) = [] := by
    rw [List.filter_eq_nil]
    intro e he
    have := h1 e he
    simp [this]
  have hfid : (cache.filter (fun e => e.source != name)).filter (fun e => e.source != name)
      = cache.filter (fun e => e.source != name) := by
    rw [List.filter_filter]
    congr 1
    funext a
    rw [Bool.and_self]
  have hbase : (ingestFileStep f fuel2 name d2
      (ingestFileStep f fuel1 name d1 (cache, files, kv))).1
      = cache.filter (fun e => e.source != name) ++ d2 := by
    rw [hst2, hst1, List.filter_append, hd1nil, hfid, List.append_nil]
  constructor
  · rw [hbase, List.filter_append]
    have hcnil : (cache.filter (fun e => e.source != name)).filter
        (fun e => e.source == name) = [] := by
      rw [List.filter_eq_nil]
      intro e he
      have hne := (List.mem_filter.mp he).2
      simp at hne ⊢
      exact hne
    have hd2all : d2.filter (fun e => e.source == name) = d2 := by
      rw [List.filter_eq_self]
      intro e he
      simp [h2 e he]
    rw [hcnil, hd2all, List.nil_append]
  · rw [hbase, List.filter_append, hfid]
    have hd2nil : d2.filter (fun e => e.source != name) = [] := by
      rw [List.filter_eq_nil]
      intro e he
      simp [h2 e he]
    rw [hd2nil, List.append_nil]

theorem C6_witness :
    (∀ n, noFail n = false)
      ∧ (∀ e ∈ batchOne, e.source = "a.csv")
      ∧ (∀ e ∈ batchFourCsv, e.source = "a.csv")
      ∧ (((ingestFileStep noFail 1 "a.csv" batchFourCsv
              (ingestFileStep noFail 1 "a.csv" batchOne ([staleEntry], [], kvEmpty))).1.filter
            (fun e => e.source == "a.csv")).length = batchFourCsv.length
          ∧ (ingestFileStep noFail 1 "a.csv" batchFourCsv
                (ingestFileStep noFail 1 "a.csv" batchOne ([staleEntry], [], kvEmpty))).1.filter
              (fun e => e.source != "a.csv")
            = ([staleEntry] : List DataEntry).filter (fun e => e.source != "a.csv")) :=
  ⟨fun _ => rfl, by decide, by decide,
    C6_amended noFail (fun _ => rfl) 1 1 "a.csv" batchOne batchFourCsv [staleEntry] [] kvEmpty
      (by decide) (by decide)⟩

/-! ### The lexical search engine

`extractRowsCommand` (knowledge.ts:254-273) matches the query against four
regexes in declaration order.  The regexes are embedded as explicit scanners:
`/(?:show|get|display)\s+(?:top|first)\s+(\d+)/i` searches for the leftmost
position where some verb alternative, one-or-more whitespace, some keyword
alternative, one-or-more whitespace and a digit run match in sequence;
`/^(?:top|first)\s+(\d+)/i` is the same anchored at position 0 with no verb.
Case-insensitivity is modelled by lowercasing the query (the pattern literals
are already lowercase). -/

inductive RowType where
  | top
  | bottom
deriving Repr, DecidableEq

/-- Match a literal (already lowercased) at the head, returning the rest. -/
def takeAfterLit : List Char → List Char → Option (List Char)
  | [], cs => some cs
  | _ :: _, [] => none
  | p :: ps, c :: cs => if p == c then takeAfterLit ps cs else none

/-- Model of `\s+`: one or more whitespace characters (greedy). -/
def munchWs1 : List Char → Option (List Char)
  | [] => none
  | c :: rest => if jsWs c then some (rest.dropWhile jsWs) else none

/-- Model of `(\d+)` followed by `parseInt(match[1], 10)`: a non-empty digit run. -/
def readCount (cs : List Char) : Option Nat :=
  let ds := cs.takeWhile (fun c => c.isDigit)
  if ds.isEmpty then none else some (parseNatDigits ds)

/-- Keyword alternation then `\s+(\d+)`, at the current position. -/
def matchKwNum (kws : List String) (cs : List Char) : Option Nat :=
  kws.findSome? (fun k =>
    (takeAfterLit k.data cs).bind (fun r1 => (munchWs1 r1).bind readCount))

/-- Verb alternation then `\s+` then keyword alternation then `\s+(\d+)`,
at the current position. -/
def matchVerbKwNumHere (verbs kws : List String) (cs : List Char) : Option Nat :=
  verbs.findSome? (fun v =>
    (takeAfterLit v.data cs).bind (fun r1 => (munchWs1 r1).bind (matchKwNum kws)))

/-- Unanchored regex search: leftmost match wins. -/
def searchFrom (verbs kws : List String) : List Char → Option Nat
  | [] => none
  | c :: rest =>
    match matchVerbKwNumHere verbs kws (c :: rest) with
    | some n => some n
    | none => searchFrom verbs kws rest

/-- Model of `extractRowsCommand` (knowledge.ts:254-273): the four patterns are tried
in declaration order, first match wins. -/
def extractRowsCommand (query : String) : Option (RowType × Nat) :=
  match searchFrom ["show", "get", "display"] ["top", "first"] (strToLower query).data with
  | some n => some (RowType.top, n)
  | none =>
  match searchFrom ["show", "get", "display"] ["bottom", "last"] (strToLower query).data with
  | some n => some (RowType.bottom, n)
  | none =>
  match matchKwNum ["top", "first"] (strToLower query).data with
  | some n => some (RowType.top, n)
  | none =>
  match matchKwNum ["bottom", "last"] (strToLower query).data with
  | some n => some (RowType.bottom, n)
  | none => none

/-- The row selection of the row-command branch (knowledge.ts:282-284):
`type === 'top' ? cachedData.slice(0, count) : cachedData.slice(-count)`. -/
def rowCommandRows (ty : RowType) (count : Nat) (cache : List DataEntry) : List DataEntry :=
  match ty with
  | RowType.top => cache.take count
  | RowType.bottom => jsSliceFromNeg count cache

/-- The `searchDetails` payload of a `SearchResult`. -/
structure SearchDetails where
  totalRecords : Nat
  searchTerms : List String
  conditions : List String
  requestedColumns : List String
  availableColumns : List String
  sources : List String
deriving Repr, DecidableEq

/-- The result shape shared by both search branches. -/
structure SearchResult where
  text : String
  foundInKnowledgeBase : Bool
  searchDetails : SearchDetails
deriving Repr, DecidableEq

/-- Model of `Object.keys(rows[0]).filter(key => key !== 'content' && key !== 'source')`. -/
def headersOf (e : DataEntry) : List String :=
  (e.fields.map Prod.fst).filter (fun k => k != "content" && k != "source")

/-- Model of `[...new Set(xs)]`: deduplication keeping first occurrences in order. -/
def jsDedup (l : List String) : List String :=
  l.foldl (fun acc s => if acc.contains s then acc else acc ++ [s]) []

/-- The "No data available to display." result (knowledge.ts:286-299). -/
def noDataResult : SearchResult :=
  { text := "No data available to display."
    foundInKnowledgeBase := false
    searchDetails :=
      { totalRecords := 0, searchTerms := [], conditions := [], requestedColumns := []
        availableColumns := [], sources := [] } }

/-- The "No matching records found." result (knowledge.ts:323-336). -/
def noMatchResult (terms : List String) : SearchResult :=
  { text := "No matching records found."
    foundInKnowledgeBase := false
    searchDetails :=
      { totalRecords := 0, searchTerms := terms, conditions := [], requestedColumns := []
        availableColumns := [], sources := [] } }

/-- The catch-all error result (knowledge.ts:354-368). -/
def searchErrorResult : SearchResult :=
  { text := "An error occurred while searching the knowledge base."
    foundInKnowledgeBase := false
    searchDetails :=
      { totalRecords := 0, searchTerms := [], conditions := [], requestedColumns := []
        availableColumns := [], sources := [] } }

/-- The stop-word set of `extractSearchTerms` (knowledge.ts:372-377). -/
def stopWords : List String :=
  ["show", "list", "display", "what", "where", "find", "me", "the", "a", "an",
   "and", "or", "but", "in", "on", "at", "to", "for", "of", "with", "by",
   "table", "data", "information", "about", "tell", "give", "get", "search",
   "top", "bottom", "first", "last", "rows"]

/-- Model of `/^\d+$/.test(term)`. -/
def isAllDigits (s : String) : Bool :=
  !s.data.isEmpty && s.data.all (fun c => c.isDigit)

/-- Fuel-driven splitter for `split(/\s+/)` (empty fragments dropped — they
are removed by the length filter anyway).  Fuel starts at the character count
and bounds the recursion depth. -/
def splitWsAux : Nat → List Char → List (List Char)
  | _, [] => []
  | 0, _ :: _ => []
  | fuel + 1, c :: rest =>
    if jsWs c then splitWsAux fuel rest
    else (c :: rest.takeWhile (fun d => !jsWs d))
        :: splitWsAux fuel (rest.dropWhile (fun d => !jsWs d))

def splitWsTokens (cs : List Char) : List (List Char) :=
  splitWsAux cs.length cs

/-- Model of `extractSearchTerms` (knowledge.ts:371-387): lowercase, replace
`.`/`,`/`?`/`!` by spaces, split on whitespace, keep tokens longer than 2
characters that are neither stop-words nor all digits. -/
def extractSearchTerms (query : String) : List String :=
  ((splitWsTokens ((strToLower query).data.map
      (fun c => if c == '.' || c == ',' || c == '?' || c == '!' then ' ' else c))).map
    (fun t => String.mk t)).filter
    (fun t => decide (2 < t.length) && !(stopWords.contains t) && !(isAllDigits t))

/-- The per-record haystack of `searchLocalData` (knowledge.ts:393-396):
all values except `content`/`source`, lowercased, joined with spaces. -/
def entryText (e : DataEntry) : String :=
  String.intercalate " "
    ((e.fields.filter (fun kv => kv.1 != "content" && kv.1 != "source")).map
      (fun kv => strToLower kv.2))

def isPre : List Char → List Char → Bool
  | [], _ => true
  | _ :: _, [] => false
  | a :: as, b :: bs => a == b && isPre as bs

/-- Model of `haystack.includes(needle)` as substring containment. -/
def subStr (pat : List Char) : List Char → Bool
  | [] => isPre pat []
  | c :: rest => isPre pat (c :: rest) || subStr pat rest

/-- The record scan of `searchLocalData` (knowledge.ts:392-401), threaded
through `Except`: scanning record `i` throws when the exception oracle fires
there (modelling a malformed record). -/
def searchScanE (exc : Oracle) (terms : List String) : Nat → List DataEntry →
    Except Unit (List DataEntry)
  | _, [] => Except.ok []
  | i, e :: rest =>
    if exc i then Except.error ()
    else
      match searchScanE exc terms (i + 1) rest with
      | Except.error u => Except.error u
      | Except.ok r =>
        Except.ok
          (if terms.any (fun t => subStr (strToLower t).data (entryText e).data)
           then e :: r else r)

/-- Model of `searchLocalData` (knowledge.ts:389-402): empty term set short-circuits
to no matches without scanning. -/
def searchLocalDataE (exc : Oracle) (terms : List String) (cache : List DataEntry) :
    Except Unit (List DataEntry) :=
  if terms.isEmpty then Except.ok [] else searchScanE exc terms 0 cache

/-- The result built by the row-command branch (knowledge.ts:286-316) from
the selected rows. -/
def rowsBranchResult (ty : RowType) (rows : List DataEntry) : SearchResult :=
  match rows with
  | [] => noDataResult
  | r0 :: rest =>
    { text := "Showing "
        ++ (match ty with | RowType.top => "first" | RowType.bottom => "last")
        ++ " " ++ Nat.repr (r0 :: rest).length ++ " rows from the dataset."
      foundInKnowledgeBase := true
      searchDetails :=
        { totalRecords := (r0 :: rest).length
          searchTerms := []
          conditions := []
          requestedColumns := headersOf r0
          availableColumns := headersOf r0
          sources := jsDedup ((r0 :: rest).map (fun e => e.source)) } }

/-- The result built by the free-text branch (knowledge.ts:320-353) from the
matching records: the `content` of the *first* match is the primary text. -/
def freeBranchResult (terms : List String) (relevant : List DataEntry) : SearchResult :=
  match relevant with
  | [] => noMatchResult terms
  | r0 :: rest =>
    { text := r0.content
      foundInKnowledgeBase := true
      searchDetails :=
        { totalRecords := (r0 :: rest).length
          searchTerms := terms
          conditions := []
          requestedColumns := headersOf r0
          availableColumns := headersOf r0
          sources := jsDedup ((r0 :: rest).map (fun e => e.source)) } }

/-- The body of the `try` of `searchKnowledgeBase` (knowledge.ts:276-353). -/
def searchBodyE (exc : Oracle) (query : String) (cache : List DataEntry) :
    Except Unit SearchResult :=
  match extractRowsCommand query with
  | some (ty, count) => Except.ok (rowsBranchResult ty (rowCommandRows ty count cache))
  | none =>
    match searchLocalDataE exc (extractSearchTerms query) cache with
    | Except.error u => Except.error u
    | Except.ok relevant => Except.ok (freeBranchResult (extractSearchTerms query) relevant)

/-- Model of `searchKnowledgeBase` with its `catch` (knowledge.ts:354-368): an
exception from the body is converted to the error result.  An `Except.error`
here would mean an exception escaped to the caller. -/
def searchKnowledgeBaseE (exc : Oracle) (query : String) (cache : List DataEntry) :
    Except Unit SearchResult :=
  match searchBodyE exc query cache with
  | Except.ok r => Except.ok r
  | Except.error _ => Except.ok searchErrorResult

/-- The `SearchResult` actually returned to the caller. -/
def searchKnowledgeBase (exc : Oracle) (query : String) (cache : List DataEntry) :
    SearchResult :=
  match searchKnowledgeBaseE exc query cache with
  | Except.ok r => r
  | Except.error _ => searchErrorResult

/-- The oracle under which no scan step throws. -/
def noExc : Oracle := fun _ => false

/-- Whether an `Except` result is a normal return. -/
def exceptOk (x : Except Unit SearchResult) : Bool :=
  match x with
  | Except.ok _ => true
  | Except.error _ => false

/-! ### Lemmas about the search engine -/

theorem searchKBE_of_error (exc : Oracle) (q : String) (c : List DataEntry) (u : Unit)
    (h : searchBodyE exc q c = Except.error u) :
    searchKnowledgeBaseE exc q c = Except.ok searchErrorResult := by
  rw [searchKnowledgeBaseE, h]

theorem searchKBE_of_ok (exc : Oracle) (q : String) (c : List DataEntry) (r : SearchResult)
    (h : searchBodyE exc q c = Except.ok r) :
    searchKnowledgeBaseE exc q c = Except.ok r := by
  rw [searchKnowledgeBaseE, h]

theorem searchKB_of_E (exc : Oracle) (q : String) (c : List DataEntry) (r : SearchResult)
    (h : searchKnowledgeBaseE exc q c = Except.ok r) :
    searchKnowledgeBase exc q c = r := by
  rw [searchKnowledgeBase, h]

/-- The `top` row-command branch on a non-empty selection. -/
theorem searchKB_rows_top (exc : Oracle) (query : String) (count : Nat)
    (cache : List DataEntry) (r0 : DataEntry) (rest : List DataEntry)
    (hcmd : extractRowsCommand query = some (RowType.top, count))
    (hrows : rowCommandRows RowType.top count cache = r0 :: rest) :
    searchKnowledgeBase exc query cache
      = { text := "Showing first " ++ Nat.repr (r0 :: rest).length
            ++ " rows from the dataset."
          foundInKnowledgeBase := true
          searchDetails :=
            { totalRecords := (r0 :: rest).length
              searchTerms := []
              conditions := []
              requestedColumns := headersOf r0
              availableColumns := headersOf r0
              sources := jsDedup ((r0 :: rest).map (fun e => e.source)) } } := by
  apply searchKB_of_E
  apply searchKBE_of_ok
  unfold searchBodyE
  rw [hcmd]
  show Except.ok (rowsBranchResult RowType.top (rowCommandRows RowType.top count cache)) = _
  rw [hrows]
  rfl

/-- The `bottom` row-command branch on a non-empty selection. -/
theorem searchKB_rows_bottom (exc : Oracle) (query : String) (count : Nat)
    (cache : List DataEntry) (r0 : DataEntry) (rest : List DataEntry)
    (hcmd : extractRowsCommand query = some (RowType.bottom, count))
    (hrows : rowCommandRows RowType.bottom count cache = r0 :: rest) :
    searchKnowledgeBase exc query cache
      = { text := "Showing last " ++ Nat.repr (r0 :: rest).length
            ++ " rows from the dataset."
          foundInKnowledgeBase := true
          searchDetails :=
            { totalRecords := (r0 :: rest).length
              searchTerms := []
              conditions := []
              requestedColumns := headersOf r0
              availableColumns := headersOf r0
              sources := jsDedup ((r0 :: rest).map (fun e => e.source)) } } := by
  apply searchKB_of_E
  apply searchKBE_of_ok
  unfold searchBodyE
  rw [hcmd]
  show Except.ok (rowsBranchResult RowType.bottom (rowCommandRows RowType.bottom count cache)) = _
  rw [hrows]
  rfl

/-- The row-command branch on an empty selection. -/
theorem searchKB_rows_empty (exc : Oracle) (query : String) (ty : RowType) (count : Nat)
    (cache : List DataEntry)
    (hcmd : extractRowsCommand query = some (ty, count))
    (hrows : rowCommandRows ty count cache = []) :
    searchKnowledgeBase exc query cache = noDataResult := by
  apply searchKB_of_E
  apply searchKBE_of_ok
  unfold searchBodyE
  rw [hcmd]
  show Except.ok (rowsBranchResult ty (rowCommandRows ty count cache)) = _
  rw [hrows]
  rfl

theorem take_eq_range_map_getD (l : List DataEntry) (m : Nat) (hm : m ≤ l.length)
    (d : DataEntry) :
    l.take m = (List.range m).map (fun i => l.getD i d) := by
  apply List.ext_getElem
  · simp only [List.length_take, List.length_map, List.length_range]
    omega
  · intro i h1 h2
    have hi : i < l.length := by
      simp only [List.length_take] at h1
      omega
    simp only [List.getElem_take, List.getElem_map, List.getElem_range]
    rw [List.getD_eq_getElem l d hi]

theorem drop_eq_range_map_getD (l : List DataEntry) (k : Nat) (hk : k ≤ l.length)
    (d : DataEntry) :
    l.drop k = (List.range (l.length - k)).map (fun j => l.getD (k + j) d) := by
  apply List.ext_getElem
  · simp only [List.length_drop, List.length_map, List.length_range]
  · intro i h1 h2
    have hi : k + i < l.length := by
      simp only [List.length_drop] at h1
      omega
    simp only [List.getElem_drop, List.getElem_map, List.getElem_range]
    rw [List.getD_eq_getElem l d hi]

/-! ### Claim C7: search never throws -/

/-- C7: for every query, cache and exception pattern, `searchKnowledgeBase`
returns a `SearchResult` normally, and whenever the body threw, the result is
the error result with `foundInKnowledgeBase = false` and `totalRecords = 0`. -/
theorem C7_search_never_throws (exc : Oracle) (query : String) (cache : List DataEntry) :
    searchKnowledgeBaseE exc query cache
        = Except.ok (searchKnowledgeBase exc query cache)
      ∧ (exceptOk (searchBodyE exc query cache) = false →
          searchKnowledgeBase exc query cache = searchErrorResult
            ∧ (searchKnowledgeBase exc query cache).foundInKnowledgeBase = false
            ∧ (searchKnowledgeBase exc query cache).searchDetails.totalRecords = 0) := by
  rcases hb : searchBodyE exc query cache with u | r
  · have he := searchKBE_of_error exc query cache u hb
    have hkb := searchKB_of_E exc query cache searchErrorResult he
    refine ⟨by rw [he, hkb], fun _ => ⟨hkb, by rw [hkb]; rfl, by rw [hkb]; rfl⟩⟩
  · have he := searchKBE_of_ok exc query cache r hb
    have hkb := searchKB_of_E exc query cache r he
    refine ⟨by rw [he, hkb], fun hcon => ?_⟩
    simp [exceptOk] at hcon

/-- The oracle under which every scan step throws. -/
def alwaysExc : Oracle := fun _ => true

theorem C7_witness :
    exceptOk (searchBodyE alwaysExc "aspirin" [freshEntry]) = false
      ∧ (searchKnowledgeBaseE alwaysExc "aspirin" [freshEntry]
            = Except.ok (searchKnowledgeBase alwaysExc "aspirin" [freshEntry])
          ∧ (exceptOk (searchBodyE alwaysExc "aspirin" [freshEntry]) = false →
              searchKnowledgeBase alwaysExc "aspirin" [freshEntry] = searchErrorResult
                ∧ (searchKnowledgeBase alwaysExc "aspirin"
                    [freshEntry]).foundInKnowledgeBase = false
                ∧ (searchKnowledgeBase alwaysExc "aspirin"
                    [freshEntry]).searchDetails.totalRecords = 0)) :=
  ⟨by decide, C7_search_never_throws alwaysExc "aspirin" [freshEntry]⟩

/-! ### Claim C8: the row-range commands -/

/-- C8: against a 20-record cache, `"show top 5"` selects exactly the records
at positions `[0..5)` in cache order (`foundInKnowledgeBase = true`,
`totalRecords = 5`), `"show bottom 3"` selects exactly positions `[17..20)`,
and the patterns are tried in declaration order — a later `top` match beats
an earlier `bottom` occurrence in the query string. -/
theorem C8_row_commands (cache : List DataEntry) (h : cache.length = 20) :
    extractRowsCommand "show top 5" = some (RowType.top, 5)
      ∧ rowCommandRows RowType.top 5 cache
          = (List.range 5).map (fun i => cache.getD i freshEntry)
      ∧ (searchKnowledgeBase noExc "show top 5" cache).foundInKnowledgeBase = true
      ∧ (searchKnowledgeBase noExc "show top 5" cache).searchDetails.totalRecords = 5
      ∧ extractRowsCommand "show bottom 3" = some (RowType.bottom, 3)
      ∧ rowCommandRows RowType.bottom 3 cache
          = (List.range 3).map (fun j => cache.getD (17 + j) freshEntry)
      ∧ (searchKnowledgeBase noExc "show bottom 3" cache).foundInKnowledgeBase = true
      ∧ (searchKnowledgeBase noExc "show bottom 3" cache).searchDetails.totalRecords = 3
      ∧ extractRowsCommand "show bottom 2 show top 9" = some (RowType.top, 9) := by
  have hcmd5 : extractRowsCommand "show top 5" = some (RowType.top, 5) := by decide
  have hcmd3 : extractRowsCommand "show bottom 3" = some (RowType.bottom, 3) := by decide
  have htop : rowCommandRows RowType.top 5 cache = cache.take 5 := rfl
  have hbot : rowCommandRows RowType.bottom 3 cache = cache.drop 17 := by
    show jsSliceFromNeg 3 cache = _
    rw [jsSliceFromNeg, if_neg (by omega), h]
  cases cache with
  | nil => simp at h
  | cons c0 t =>
    have ht : t.length = 19 := by
      simp only [List.length_cons] at h
      omega
    have hrows5 : rowCommandRows RowType.top 5 (c0 :: t) = c0 :: t.take 4 := rfl
    have hlen5 : (c0 :: t.take 4).length = 5 := by
      simp only [List.length_cons, List.length_take]
      omega
    have hkb5 := searchKB_rows_top noExc "show top 5" 5 (c0 :: t) c0 (t.take 4)
      hcmd5 hrows5
    rcases hd : (c0 :: t).drop 17 with _ | ⟨r0, rest⟩
    · exfalso
      have : ((c0 :: t).drop 17).length = 3 := by
        simp only [List.length_drop, List.length_cons]
        omega
      rw [hd] at this
      simp at this
    · have hrows3 : rowCommandRows RowType.bottom 3 (c0 :: t) = r0 :: rest := by
        rw [hbot, hd]
      have hlen3 : (r0 :: rest).length = 3 := by
        rw [← hd]
        simp only [List.length_drop, List.length_cons]
        omega
      have hkb3 := searchKB_rows_bottom noExc "show bottom 3" 3 (c0 :: t) r0 rest
        hcmd3 hrows3
      refine ⟨hcmd5, ?_, ?_, ?_, hcmd3, ?_, ?_, ?_, by decide⟩
      · rw [htop]
        exact take_eq_range_map_getD (c0 :: t) 5 (by simp only [List.length_cons]; omega)
          freshEntry
      · rw [hkb5]
      · rw [hkb5]
        exact hlen5
      · rw [hbot]
        have := drop_eq_range_map_getD (c0 :: t) 17
          (by simp only [List.length_cons]; omega) freshEntry
        rw [this]
        have h3 : (c0 :: t).length - 17 = 3 := by
          simp only [List.length_cons]
          omega
        rw [h3]
      · rw [hkb3]
      · rw [hkb3]
        exact hlen3

def cacheTwenty : List DataEntry := (List.range 20).map numEntry

theorem C8_witness :
    cacheTwenty.length = 20
      ∧ (extractRowsCommand "show top 5" = some (RowType.top, 5)
        ∧ rowCommandRows RowType.top 5 cacheTwenty
            = (List.range 5).map (fun i => cacheTwenty.getD i freshEntry)
        ∧ (searchKnowledgeBase noExc "show top 5" cacheTwenty).foundInKnowledgeBase = true
        ∧ (searchKnowledgeBase noExc "show top 5" cacheTwenty).searchDetails.totalRecords = 5
        ∧ extractRowsCommand "show bottom 3" = some (RowType.bottom, 3)
        ∧ rowCommandRows RowType.bottom 3 cacheTwenty
            = (List.range 3).map (fun j => cacheTwenty.getD (17 + j) freshEntry)
        ∧ (searchKnowledgeBase noExc "show bottom 3" cacheTwenty).foundInKnowledgeBase = true
        ∧ (searchKnowledgeBase noExc "show bottom 3" cacheTwenty).searchDetails.totalRecords = 3
        ∧ extractRowsCommand "show bottom 2 show top 9" = some (RowType.top, 9)) :=
  ⟨by decide, C8_row_commands cacheTwenty (by decide)⟩

/-! ### Claim C10: zero-count row commands -/

/-- C10: on a non-empty cache the two branches treat a captured count of 0
asymmetrically: `"show top 0"` slices `[0, 0)`, gets no rows and returns the
"No data available to display." result (`foundInKnowledgeBase = false`,
`totalRecords = 0`), while `"show bottom 0"` computes `slice(-0) = slice(0)`,
returns the entire cache and reports `foundInKnowledgeBase = true`. -/
theorem C10_zero_count (cache : List DataEntry) (h : cache ≠ []) :
    extractRowsCommand "show top 0" = some (RowType.top, 0)
      ∧ searchKnowledgeBase noExc "show top 0" cache = noDataResult
      ∧ noDataResult.foundInKnowledgeBase = false
      ∧ noDataResult.searchDetails.totalRecords = 0
      ∧ extractRowsCommand "show bottom 0" = some (RowType.bottom, 0)
      ∧ rowCommandRows RowType.bottom 0 cache = cache
      ∧ (searchKnowledgeBase noExc "show bottom 0" cache).foundInKnowledgeBase = true
      ∧ (searchKnowledgeBase noExc "show bottom 0" cache).searchDetails.totalRecords
          = cache.length := by
  have hcmdt : extractRowsCommand "show top 0" = some (RowType.top, 0) := by decide
  have hcmdb : extractRowsCommand "show bottom 0" = some (RowType.bottom, 0) := by decide
  have hbot0 : rowCommandRows RowType.bottom 0 cache = cache := rfl
  cases cache with
  | nil => exact absurd rfl h
  | cons c0 t =>
    have hkbt := searchKB_rows_empty noExc "show top 0" RowType.top 0 (c0 :: t) hcmdt rfl
    have hkbb := searchKB_rows_bottom noExc "show bottom 0" 0 (c0 :: t) c0 t
      hcmdb rfl
    exact ⟨hcmdt, hkbt, rfl, rfl, hcmdb, hbot0, by rw [hkbb], by rw [hkbb]⟩

theorem C10_witness :
    ([freshEntry] : List DataEntry) ≠ []
      ∧ (extractRowsCommand "show top 0" = some (RowType.top, 0)
        ∧ searchKnowledgeBase noExc "show top 0" [freshEntry] = noDataResult
        ∧ noDataResult.foundInKnowledgeBase = false
        ∧ noDataResult.searchDetails.totalRecords = 0
        ∧ extractRowsCommand "show bottom 0" = some (RowType.bottom, 0)
        ∧ rowCommandRows RowType.bottom 0 [freshEntry] = [freshEntry]
        ∧ (searchKnowledgeBase noExc "show bottom 0" [freshEntry]).foundInKnowledgeBase = true
        ∧ (searchKnowledgeBase noExc "show bottom 0" [freshEntry]).searchDetails.totalRecords
            = ([freshEntry] : List DataEntry).length) :=
  ⟨by decide, C10_zero_count [freshEntry] (by decide)⟩

end Knowledge
